import Mathlib

/-!
Shallow embedding of the FlagWars game core: the simulation engine in
`src/flagwars/models.py` (`TerrainType`, `Player`, `Tile`, `GameState`) and the
room orchestration / view serialization in `src/flagwars/server.py`
(`GameManager`).

Modelling conventions:
* Python `dict`s keyed by player id are modelled either as total functions
  `Nat → _` (with an explicit `Option` codomain when key absence is
  observable) or as association lists when iteration order matters.
* `tile.owner` holds a `Player` object in Python but is only ever compared or
  read through `.id`; it is modelled as `Option Nat` (the owner's id).
* The board `self.tiles[y][x]` is modelled as a function `Nat → Nat → Tile`
  applied as `tiles y x`; in-place mutation becomes functional update
  (`setTile`), sequenced in the same order as the Python statements.
* Python `for` loops over the grid run row-major (`for row in tiles: for tile
  in row`); they are modelled as folds over `rowMajor`, except loops whose
  iterations touch pairwise-distinct tiles independently, which are modelled
  as the equivalent pointwise grid update.
* Coordinates are `Nat`; Python's `0 <= v < bound` check becomes `v < bound`.
-/

namespace FlagWars

/-- `TerrainType` enum of models.py. -/
inductive TerrainType where
  | plain
  | base
  | tower
  | wall
  | mountain
  | swamp
deriving DecidableEq, Repr

/-- `Player` of models.py (the fields used by the game core). -/
structure Player where
  id : Nat
  name : String
  color : String
  basePosition : Option (Nat × Nat)
  isAlive : Bool
  voluntarySpectator : Bool
  isSpectator : Bool
  ready : Bool
deriving DecidableEq, Repr

/-- `Player.eliminate`: mark the player dead and spectating. -/
def Player.eliminate (p : Player) : Player :=
  { p with isAlive := false, isSpectator := true }

/-- `Tile` of models.py.  `visibility` is the dict `{player_id: bool}`;
`none` means the key is absent. -/
structure Tile where
  x : Nat
  y : Nat
  terrain : TerrainType
  owner : Option Nat
  soldiers : Nat
  requiredSoldiers : Nat
  visibility : Nat → Option Bool

/-- `Tile.is_passable`: every terrain except mountain is passable. -/
def Tile.isPassable (t : Tile) : Bool :=
  t.terrain != TerrainType.mountain

/-- One entry of a `pending_moves` queue. -/
structure MoveReq where
  fromX : Nat
  fromY : Nat
  toX : Nat
  toY : Nat
  playerId : Nat
  createdTick : Nat
deriving DecidableEq, Repr

/-- One entry of a `movement_arrows` list. -/
structure Arrow where
  fromX : Nat
  fromY : Nat
  toX : Nat
  toY : Nat
  createdTick : Nat
  moveId : String
deriving DecidableEq, Repr

/-- The `game_over_type` values `'normal'` and `'abnormal'`. -/
inductive GameOverType where
  | normal
  | abnormal
deriving DecidableEq, Repr

/-- `GameState.winner` holds a `Player` object when set by `_check_game_over`
but a name string when set by `transfer_player_assets`; the sum keeps both. -/
inductive WinnerVal where
  | player (p : Player)
  | name (n : String)
deriving DecidableEq, Repr

/-- `GameState` of models.py (the fields used by the claims).  `players` is
the dict `self.players` in insertion order; `pendingMoves k` and
`movementArrows k` are the per-player queues (absent key = `[]`). -/
structure GameState where
  mapWidth : Nat
  mapHeight : Nat
  tiles : Nat → Nat → Tile
  players : List Player
  currentTick : Nat
  gameOver : Bool
  gameStarted : Bool
  winner : Option WinnerVal
  pendingMoves : Nat → List MoveReq
  movementArrows : Nat → List Arrow
  gameOverType : Option GameOverType

/-- Functional update of one grid cell (`self.tiles[y][x] = t`). -/
def setTile (g : Nat → Nat → Tile) (x y : Nat) (t : Tile) : Nat → Nat → Tile :=
  fun y' x' => if y' = y ∧ x' = x then t else g y' x'

/-- Row-major enumeration of the board coordinates, as `(x, y)` pairs:
`for row in self.tiles: for tile in row`. -/
def rowMajor (w h : Nat) : List (Nat × Nat) :=
  (List.range h).flatMap (fun yy => (List.range w).map (fun xx => (xx, yy)))

/-- `self.players.get(pid)` / `pid in self.players`. -/
def GameState.findPlayer (s : GameState) (pid : Nat) : Option Player :=
  s.players.find? (fun p => p.id == pid)

/-- One iteration of the tile loop of `GameState.transfer_player_assets`:
state is the grid paired with the conqueror's current `base_position`. -/
def transferStep (w h elimId conqId : Nat)
    (st : (Nat → Nat → Tile) × Option (Nat × Nat)) (xy : Nat × Nat) :
    (Nat → Nat → Tile) × Option (Nat × Nat) :=
  let tile := st.1 xy.2 xy.1
  if tile.owner == some elimId then
    let g1 := setTile st.1 xy.1 xy.2 { tile with owner := some conqId }
    if tile.terrain == TerrainType.base then
      let g2 :=
        match st.2 with
        | some bp =>
            if bp.1 < w ∧ bp.2 < h then
              setTile g1 bp.1 bp.2 { (g1 bp.2 bp.1) with terrain := TerrainType.plain }
            else g1
        | none => g1
      (g2, some (tile.x, tile.y))
    else (g1, st.2)
  else st

/-- `GameState.transfer_player_assets(eliminated_player_id, conqueror_player_id)`. -/
def GameState.transferPlayerAssets (s : GameState) (elimId conqId : Nat) : GameState :=
  match s.findPlayer elimId, s.findPlayer conqId with
  | some _, some conq =>
    let res := (rowMajor s.mapWidth s.mapHeight).foldl
        (transferStep s.mapWidth s.mapHeight elimId conqId) (s.tiles, conq.basePosition)
    let players1 := s.players.map
        (fun p => if p.id == conqId then { p with basePosition := res.2 } else p)
    let players2 := players1.map (fun p => if p.id == elimId then p.eliminate else p)
    let s1 : GameState := { s with tiles := res.1, players := players2 }
    let alive : List Player := s1.players.filter (fun p => p.isAlive && !p.isSpectator)
    if alive.length ≤ 1 then
      { s1 with gameOver := true,
                winner := match alive.head? with
                          | some p => some (WinnerVal.name p.name)
                          | none => s1.winner }
    else s1
  | _, _ => s

/-- `GameState._process_move(from_x, from_y, to_x, to_y, player_id)`.
Returns the Python boolean result paired with the updated state (the state is
unchanged whenever the result is `false`). -/
def GameState.processMove (s : GameState) (fromX fromY toX toY playerId : Nat) :
    Bool × GameState :=
  if ¬ (fromX < s.mapWidth ∧ fromY < s.mapHeight) then (false, s)
  else if ¬ (toX < s.mapWidth ∧ toY < s.mapHeight) then (false, s)
  else
    let fromTile := s.tiles fromY fromX
    let toTile := s.tiles toY toX
    if fromTile.owner ≠ some playerId then (false, s)
    else if !toTile.isPassable then (false, s)
    else if fromTile.soldiers ≤ 1 then (false, s)
    else
      let isEnemyBase := toTile.terrain == TerrainType.base && toTile.owner.isSome
        && toTile.owner != some playerId
      let baseOwner :=
        if isEnemyBase then s.players.find? (fun p => p.basePosition == some (toX, toY))
        else none
      let movable := fromTile.soldiers - 1
      let s1 :=
        if toTile.owner ≠ some playerId then
          let g1 :=
            match toTile.owner with
            | none =>
              let eff := toTile.soldiers
              if eff = 0 then
                let t := { toTile with owner := fromTile.owner, soldiers := movable }
                let t := if t.terrain == TerrainType.wall then
                    { t with terrain := TerrainType.plain, requiredSoldiers := 0 } else t
                setTile s.tiles toX toY t
              else if movable > eff then
                let t := { toTile with owner := fromTile.owner, soldiers := movable - eff }
                let t := if t.terrain == TerrainType.wall then
                    { t with terrain := TerrainType.plain, requiredSoldiers := 0 } else t
                setTile s.tiles toX toY t
              else if movable = eff then
                setTile s.tiles toX toY { toTile with owner := none, soldiers := 0 }
              else
                setTile s.tiles toX toY { toTile with owner := none, soldiers := eff - movable }
            | some _ =>
              if movable > toTile.soldiers then
                setTile s.tiles toX toY
                  { toTile with owner := fromTile.owner, soldiers := movable - toTile.soldiers }
              else if movable = toTile.soldiers then
                setTile s.tiles toX toY { toTile with owner := none, soldiers := 0 }
              else
                setTile s.tiles toX toY { toTile with soldiers := toTile.soldiers - movable }
          let g2 := setTile g1 fromX fromY { (g1 fromY fromX) with soldiers := 1 }
          { s with tiles := g2 }
        else
          let g1 := setTile s.tiles toX toY { toTile with soldiers := toTile.soldiers + movable }
          let g2 := setTile g1 fromX fromY { (g1 fromY fromX) with soldiers := 1 }
          { s with tiles := g2 }
      let s2 :=
        match baseOwner with
        | some bo =>
          if (s1.tiles toY toX).owner == some playerId then
            s1.transferPlayerAssets bo.id playerId
          else s1
        | none => s1
      (true, s2)

/-- `GameState.move_soldiers(from_x, from_y, to_x, to_y, player_id)`:
validate, then append the request to the player's queue and record an arrow.
The enqueue-time garrison check is `soldiers <= 0` in the source. -/
def GameState.moveSoldiers (s : GameState) (fromX fromY toX toY playerId : Nat) :
    Bool × GameState :=
  if ¬ (fromX < s.mapWidth ∧ fromY < s.mapHeight) then (false, s)
  else if ¬ (toX < s.mapWidth ∧ toY < s.mapHeight) then (false, s)
  else
    let fromTile := s.tiles fromY fromX
    if fromTile.owner ≠ some playerId then (false, s)
    else if fromTile.soldiers ≤ 0 then (false, s)
    else
      let toTile := s.tiles toY toX
      if !toTile.isPassable then (false, s)
      else
        let req : MoveReq :=
          { fromX := fromX, fromY := fromY, toX := toX, toY := toY,
            playerId := playerId, createdTick := s.currentTick }
        let moveId := toString playerId ++ "_" ++ toString fromX ++ "_" ++ toString fromY
          ++ "_" ++ toString toX ++ "_" ++ toString toY ++ "_" ++ toString s.currentTick
        let arrow : Arrow :=
          { fromX := fromX, fromY := fromY, toX := toX, toY := toY,
            createdTick := s.currentTick, moveId := moveId }
        (true,
          { s with
            pendingMoves := fun k =>
              if k = playerId then s.pendingMoves playerId ++ [req] else s.pendingMoves k,
            movementArrows := fun k =>
              if k = playerId then s.movementArrows playerId ++ [arrow] else s.movementArrows k })

/-- `abs(x - cx) + abs(y - cy)` on Python ints, for natural inputs. -/
def manhattan (x y cx cy : Nat) : Nat :=
  ((x : Int) - cx).natAbs + ((y : Int) - cy).natAbs

/-- Python `range(a, b)` (empty when `b ≤ a`). -/
def pyRange (a b : Nat) : List Nat :=
  List.range' a (b - a)

/-- The coordinate rectangle scanned by `_set_visibility_around_tile`:
`range(max(0, cy-2), min(h, cy+3))` by `range(max(0, cx-2), min(w, cx+3))`
(`max(0, ·)` is Nat truncated subtraction). -/
def visCoords (w h cx cy : Nat) : List (Nat × Nat) :=
  (pyRange (cy - 2) (min h (cy + 3))).flatMap
    (fun yy => (pyRange (cx - 2) (min w (cx + 3))).map (fun xx => (xx, yy)))

/-- `self.tiles[y][x].visibility[player_id] = True`. -/
def setVisTrue (g : Nat → Nat → Tile) (x y pid : Nat) : Nat → Nat → Tile :=
  let t := g y x
  setTile g x y { t with visibility := fun k => if k = pid then some true else t.visibility k }

/-- `GameState._set_visibility_around_tile(center_tile, player_id)` with the
default `vision_range = 2`. -/
def GameState.setVisibilityAroundTile (s : GameState) (cx cy pid : Nat) : GameState :=
  let g := (visCoords s.mapWidth s.mapHeight cx cy).foldl
    (fun g xy => if manhattan xy.1 xy.2 cx cy ≤ 2 then setVisTrue g xy.1 xy.2 pid else g)
    s.tiles
  { s with tiles := g }

/-- `GameState.update_fog_of_war`: reset every tile's visibility entry to
`False` for every current player (a pointwise update: each tile/player pair is
written exactly once by the Python double loop), then for each player mark the
vision range of each of their owned tiles. -/
def GameState.updateFogOfWar (s : GameState) : GameState :=
  let pids := s.players.map (fun p => p.id)
  let s0 := { s with tiles := fun yy xx =>
      let t := s.tiles yy xx
      { t with visibility := fun k => if k ∈ pids then some false else t.visibility k } }
  s.players.foldl (fun st p =>
    let owned := (rowMajor st.mapWidth st.mapHeight).filter
        (fun xy => (st.tiles xy.2 xy.1).owner == some p.id)
    owned.foldl (fun st2 xy =>
      let t := st.tiles xy.2 xy.1
      st2.setVisibilityAroundTile t.x t.y p.id) st) s0

/-- `GameState._check_game_over`. -/
def GameState.checkGameOver (s : GameState) : GameState :=
  let alive := s.players.filter (fun p => p.isAlive)
  if alive.length ≤ 1 then
    let s1 := { s with gameOver := true, gameOverType := some GameOverType.normal }
    match alive.head? with
    | some p => { s1 with winner := some (WinnerVal.player p) }
    | none => s1
  else s

/-- `GameState.remove_player(player_id)`: neutralize every tile the player
owned (keeping its soldiers), revert an owned base to plain with requirement
0, and delete the player.  The Python tile loop touches each tile
independently, so it is modelled as a pointwise grid update. -/
def GameState.removePlayer (s : GameState) (pid : Nat) : GameState :=
  if (s.findPlayer pid).isSome then
    { s with
      tiles := fun yy xx =>
        let t := s.tiles yy xx
        if t.owner == some pid then
          let t1 := { t with owner := none }
          if t1.terrain == TerrainType.base then
            { t1 with terrain := TerrainType.plain, requiredSoldiers := 0 }
          else t1
        else t,
      players := s.players.filter (fun p => p.id != pid) }
  else s

/-- The `total_soldiers` component of `GameState.get_player_stats`. -/
def GameState.totalSoldiers (s : GameState) (pid : Nat) : Nat :=
  (rowMajor s.mapWidth s.mapHeight).foldl
    (fun acc xy =>
      if (s.tiles xy.2 xy.1).owner == some pid then acc + (s.tiles xy.2 xy.1).soldiers else acc) 0

/-- The `owned_tiles` component of `GameState.get_player_stats`. -/
def GameState.ownedTilesCount (s : GameState) (pid : Nat) : Nat :=
  (rowMajor s.mapWidth s.mapHeight).foldl
    (fun acc xy => if (s.tiles xy.2 xy.1).owner == some pid then acc + 1 else acc) 0

/-!  Room orchestration state (`GameManager` in server.py), restricted to one
room: the per-room slices of the manager's dictionaries. -/

/-- The per-room slice of `GameManager` used by `set_player_ready`.
`countdownTask = some d` models `game_id in self.countdown_tasks` with
`d = task.done()`; `countdownValue` models `self.game_countdowns[game_id]`. -/
structure RoomState where
  readyStates : List (Nat × Bool)
  players : List Player
  gameStarted : Bool
  countdownTask : Option Bool
  countdownValue : Option Nat
deriving DecidableEq, Repr

/-- `game_id in self.countdown_tasks and not self.countdown_tasks[game_id].done()`. -/
def taskPending : Option Bool → Bool
  | some done => !done
  | none => false

/-- `self.player_ready_states[game_id].get(pid)`. -/
def lookupReady (l : List (Nat × Bool)) (pid : Nat) : Option Bool :=
  (l.find? (fun e => e.1 == pid)).map (fun e => e.2)

/-- `GameManager.start_game_countdown(game_id)`: no-op when a countdown task
is already pending, otherwise set the countdown to 3 and create a fresh
(pending) task. -/
def startGameCountdown (r : RoomState) : RoomState :=
  if taskPending r.countdownTask then r
  else { r with countdownValue := some 3, countdownTask := some false }

/-- `GameManager.set_player_ready(game_id, player_id)`: toggle the vote, count
the non-voluntary-spectator members' votes, cancel a pending countdown when
the toggling non-spectator un-readies, start the countdown when at least two
non-spectators exist and all are ready, and cancel a pending countdown when
that condition fails.  Returns the Python result (always `False` on these
paths) with the new room state. -/
def setPlayerReady (r : RoomState) (pid : Nat) : Bool × RoomState :=
  match lookupReady r.readyStates pid with
  | none => (false, r)
  | some old =>
    let newVal := !old
    let ready1 := r.readyStates.map (fun e => if e.1 == pid then (e.1, newVal) else e)
    let nonSpec := ready1.filter (fun e =>
      match (r.players.find? (fun p => p.id == e.1)) with
      | some p => !p.voluntarySpectator
      | none => false)
    let total := nonSpec.length
    let allReady := nonSpec.all (fun e => e.2)
    let r1 : RoomState :=
      if !newVal then
        match r.players.find? (fun p => p.id == pid) with
        | some p =>
          if !p.voluntarySpectator && taskPending r.countdownTask then
            { r with readyStates := ready1, countdownTask := none, countdownValue := none }
          else { r with readyStates := ready1 }
        | none => { r with readyStates := ready1 }
      else { r with readyStates := ready1 }
    if total ≥ 2 && allReady && !r.gameStarted then
      (false, startGameCountdown r1)
    else if taskPending r1.countdownTask && (total < 2 || !allReady) then
      (false, { r1 with countdownTask := none, countdownValue := none })
    else (false, r1)

/-- The non-spectator vote list inspected by `set_player_ready` once the
toggling member's vote has been flipped to `v`: the updated ready list
restricted to entries resolving to a non-voluntary-spectator player. -/
def nonSpecVotes (r : RoomState) (pid : Nat) (v : Bool) : List (Nat × Bool) :=
  (r.readyStates.map (fun e => if e.1 == pid then (e.1, v) else e)).filter (fun e =>
    match (r.players.find? (fun p => p.id == e.1)) with
    | some p => !p.voluntarySpectator
    | none => false)

/-- The per-room slice of `GameManager` used by `leave_game` /
`remove_player_connection`: the room's used-color set `room_colors[room_id]`,
the connection keys of `players[game_id]` (handlers dropped), the ready votes,
and the room's `GameState`.  `roomClosed` records that `close_room` ran. -/
structure ManagerState where
  roomColors : List String
  conns : List Nat
  readyStates : List (Nat × Bool)
  game : GameState
  roomClosed : Bool

/-- `GameState.set_abnormal_game_over`. -/
def GameState.setAbnormalGameOver (s : GameState) : GameState :=
  { s with gameOver := true, gameOverType := some GameOverType.abnormal, winner := none }

/-- `GameManager.remove_player_connection(game_id, player_id)`: when the
player has a connection entry, discard their color from the room's used-color
set and drop the connection. -/
def removePlayerConnection (m : ManagerState) (pid : Nat) : ManagerState :=
  if pid ∈ m.conns then
    let m1 : ManagerState :=
      match m.game.findPlayer pid with
      | some p => { m with roomColors := m.roomColors.filter (fun c => c ≠ p.color) }
      | none => m
    { m1 with conns := m1.conns.filter (fun c => c ≠ pid) }
  else m

/-- `GameManager.close_room(room_id)` restricted to the modelled slice: cancel
countdown state (not modelled here), drop the color record and all per-room
dictionaries, and mark an unfinished started game as abnormally over. -/
def closeRoom (m : ManagerState) : ManagerState :=
  let g := if m.game.gameStarted && !m.game.gameOver then m.game.setAbnormalGameOver else m.game
  { roomColors := [], conns := [], readyStates := [], game := g, roomClosed := true }

/-- `GameManager.leave_game(game_id, player_id)` for an existing room: drop
the connection entry and the ready vote, remove the player from the game
state, force an abnormal end when a started game drops below 2 players, and
close the room when it empties.  The used-color set is not touched on this
path. -/
def leaveGame (m : ManagerState) (pid : Nat) : ManagerState :=
  let m1 : ManagerState := { m with conns := m.conns.filter (fun c => c ≠ pid) }
  let m2 : ManagerState := { m1 with readyStates := m1.readyStates.filter (fun e => e.1 ≠ pid) }
  let m3 : ManagerState :=
    if (m2.game.findPlayer pid).isSome then { m2 with game := m2.game.removePlayer pid } else m2
  let m4 : ManagerState :=
    if m3.game.gameStarted && m3.game.players.length < 2 then
      { m3 with game := m3.game.setAbnormalGameOver }
    else m3
  if m4.game.players.length = 0 then closeRoom m4 else m4

/-!  Per-player view serialization (`GameManager.get_game_state`). -/

/-- One serialized tile of the `tiles` array emitted by
`GameManager.get_game_state`. -/
structure TileData where
  x : Nat
  y : Nat
  terrain : TerrainType
  ownerId : Option Nat
  soldiers : Nat
  requiredSoldiers : Nat
  isFog : Bool
deriving DecidableEq, Repr

/-- The full-truth serialization of a tile. -/
def fullTileData (t : Tile) : TileData :=
  { x := t.x, y := t.y, terrain := t.terrain, ownerId := t.owner,
    soldiers := t.soldiers, requiredSoldiers := t.requiredSoldiers, isFog := false }

/-- The per-tile branch of `GameManager.get_game_state`: spectators get full
truth; otherwise a tile is fogged exactly when `player_id` is truthy (`some
pid` with `pid ≠ 0`; ids are allocated from 1), `player_id in
tile.visibility`, and `tile.visibility.get(player_id, False)` is false. -/
def serializeTile (t : Tile) (isSpectator : Bool) (playerId : Option Nat) : TileData :=
  if isSpectator then fullTileData t
  else
    match playerId with
    | some pid =>
      if pid ≠ 0 ∧ (t.visibility pid).isSome ∧ ¬ ((t.visibility pid).getD false) then
        { x := t.x, y := t.y, terrain := t.terrain, ownerId := none,
          soldiers := 0, requiredSoldiers := 0, isFog := true }
      else fullTileData t
    | none => fullTileData t

/-- The `is_spectator` flag computed at the top of `get_game_state`:
`player_id` truthy and present in the game's players. -/
def GameState.viewIsSpectator (s : GameState) (playerId : Option Nat) : Bool :=
  match playerId with
  | some pid =>
    if pid ≠ 0 then
      match s.findPlayer pid with
      | some p => p.isSpectator
      | none => false
    else false
  | none => false

/-- Serialization of the tile at `(x, y)` for the requesting `playerId`. -/
def GameState.serializeTileFor (s : GameState) (playerId : Option Nat) (x y : Nat) : TileData :=
  serializeTile (s.tiles y x) (s.viewIsSpectator playerId) playerId

/-!  Concrete states used by witnesses and counterexamples. -/

/-- A fresh tile with the given position and terrain (no owner, no soldiers,
empty visibility dict). -/
def blankTile (x y : Nat) (tt : TerrainType) : Tile :=
  { x := x, y := y, terrain := tt, owner := none, soldiers := 0,
    requiredSoldiers := 0, visibility := fun _ => none }

/-- A live non-spectator player. -/
def mkPlayer (pid : Nat) (nm col : String) : Player :=
  { id := pid, name := nm, color := col, basePosition := none,
    isAlive := true, voluntarySpectator := false, isSpectator := false, ready := false }

/-- A game state over a `w × h` board of the given tiles. -/
def mkState (w h : Nat) (g : Nat → Nat → Tile) (ps : List Player) : GameState :=
  { mapWidth := w, mapHeight := h, tiles := g, players := ps, currentTick := 0,
    gameOver := false, gameStarted := true, winner := none,
    pendingMoves := fun _ => [], movementArrows := fun _ => [], gameOverType := none }

/-- Tiles within Manhattan distance 2 of a tile the player owns: the intended
visible set of the fog-of-war refresh. -/
def GameState.nearOwned (s : GameState) (pid x y : Nat) : Prop :=
  ∃ cx cy, cx < s.mapWidth ∧ cy < s.mapHeight ∧
    (s.tiles cy cx).owner = some pid ∧ manhattan x y cx cy ≤ 2

/-- As `nearOwned`, but measured from the owned tile's stored `x`/`y` fields,
which is what `update_fog_of_war` actually passes to
`_set_visibility_around_tile`. -/
def GameState.nearOwnedF (s : GameState) (pid x y : Nat) : Prop :=
  ∃ cx cy, cx < s.mapWidth ∧ cy < s.mapHeight ∧
    (s.tiles cy cx).owner = some pid ∧
    manhattan x y ((s.tiles cy cx).x) ((s.tiles cy cx).y) ≤ 2

/-- A tile with the given position, terrain, owner and soldiers and an empty
visibility dict. -/
def exTile (x y : Nat) (tt : TerrainType) (ow : Option Nat) (sol : Nat) : Tile :=
  { x := x, y := y, terrain := tt, owner := ow, soldiers := sol,
    requiredSoldiers := 0, visibility := fun _ => none }

/-- Test player 1. -/
def exPlayer1 : Player := mkPlayer 1 "alice" "#FF0000"

/-- Test player 2. -/
def exPlayer2 : Player := mkPlayer 2 "bob" "#0000FF"

/-- A 3×1 strip: player 1 holds (0,0) with 5 soldiers, (1,0) is virgin plain,
(2,0) is a mountain. -/
def exGrid1 : Nat → Nat → Tile := fun yy xx =>
  if yy = 0 ∧ xx = 0 then exTile 0 0 TerrainType.plain (some 1) 5
  else if yy = 0 ∧ xx = 1 then exTile 1 0 TerrainType.plain none 0
  else exTile xx yy TerrainType.mountain none 0

/-- Concrete state on `exGrid1` with players 1 and 2. -/
def exState1 : GameState := mkState 3 1 exGrid1 [exPlayer1, exPlayer2]

/-- As `exGrid1` but the source tile holds exactly 1 soldier. -/
def exGrid2 : Nat → Nat → Tile := fun yy xx =>
  if yy = 0 ∧ xx = 0 then exTile 0 0 TerrainType.plain (some 1) 1
  else if yy = 0 ∧ xx = 1 then exTile 1 0 TerrainType.plain none 0
  else exTile xx yy TerrainType.mountain none 0

/-- Concrete state on `exGrid2`. -/
def exState2 : GameState := mkState 3 1 exGrid2 [exPlayer1, exPlayer2]

/-- A 3×1 strip for asset transfer: player 1 holds a base at (0,0) and a
plain at (1,0); player 2 holds a base at (2,0). -/
def exGridT : Nat → Nat → Tile := fun yy xx =>
  if yy = 0 ∧ xx = 0 then exTile 0 0 TerrainType.base (some 1) 3
  else if yy = 0 ∧ xx = 1 then exTile 1 0 TerrainType.plain (some 1) 2
  else exTile xx yy TerrainType.base (some 2) 5

/-- Concrete transfer state: players 1 and 2 with their base positions. -/
def exStateT : GameState :=
  mkState 3 1 exGridT
    [{ exPlayer1 with basePosition := some (0, 0) },
     { exPlayer2 with basePosition := some (2, 0) }]

/-- A 1×1 board owned by a single player, used for the win-check witness. -/
def exStateW : GameState :=
  mkState 1 1 (fun yy xx => exTile xx yy TerrainType.base (some 1) 10) [exPlayer1]

/-- Room in `CountingDown`: two ready non-spectators, a pending countdown. -/
def exRoom : RoomState :=
  { readyStates := [(1, true), (2, true)], players := [exPlayer1, exPlayer2],
    gameStarted := false, countdownTask := some false, countdownValue := some 3 }

/-- Room in `Waiting`: one of the two non-spectators is not ready yet. -/
def exRoomW : RoomState :=
  { readyStates := [(1, true), (2, false)], players := [exPlayer1, exPlayer2],
    gameStarted := false, countdownTask := none, countdownValue := none }

/-- Manager slice of a room with two connected players and both palette
colors recorded as used. -/
def exManager : ManagerState :=
  { roomColors := ["#FF0000", "#0000FF"], conns := [1, 2],
    readyStates := [(1, false), (2, false)],
    game := mkState 2 1 (fun yy xx => exTile xx yy TerrainType.plain none 0)
      [exPlayer1, exPlayer2],
    roomClosed := false }

/-- A 1×1 board whose tile is enemy-owned with no visibility entry recorded
for player 1 (as before the first fog refresh). -/
def exFog : GameState :=
  mkState 1 1 (fun yy xx => exTile xx yy TerrainType.plain (some 2) 5)
    [exPlayer1, exPlayer2]

/-- As `exFog` but the tile carries an explicit `visibility[1] = False`
entry, as written by the fog refresh. -/
def exFog2 : GameState :=
  mkState 1 1
    (fun yy xx =>
      { exTile xx yy TerrainType.plain (some 2) 5 with
          visibility := fun k => if k = 1 then some false else none })
    [exPlayer1, exPlayer2]

/-- The board stores its own coordinates: `self.tiles[y][x]` has fields
`x`, `y`.  `_initialize_map` establishes this and no operation breaks it. -/
def GameState.coordsConsistent (s : GameState) : Prop :=
  ∀ x, x < s.mapWidth → ∀ y, y < s.mapHeight → (s.tiles y x).x = x ∧ (s.tiles y x).y = y

/-- Every owner on grid `g` agrees with `g0` except that tiles of `e` may
have been handed to `c` (invariant of the asset-transfer loop). -/
def ownerInv (g0 : Nat → Nat → Tile) (e c : Nat) (g : Nat → Nat → Tile) : Prop :=
  ∀ x y, (g y x).owner = (g0 y x).owner ∨
    ((g0 y x).owner = some e ∧ (g y x).owner = some c)

/-- `x`/`y` fields of every tile of `g` agree with `g0`. -/
def fieldsInv (g0 g : Nat → Nat → Tile) : Prop :=
  ∀ x y, (g y x).x = (g0 y x).x ∧ (g y x).y = (g0 y x).y

/-- State of the asset-transfer loop before the eliminated player's base at
`(ax, ay)` has been processed: the conqueror's recorded base position is
still the old `(bx, b2)`, no terrain has changed, and the base tile still
belongs to the eliminated player. -/
def phaseA (g0 : Nat → Nat → Tile) (e c ax ay bx b2 : Nat)
    (st : (Nat → Nat → Tile) × Option (Nat × Nat)) : Prop :=
  st.2 = some (bx, b2) ∧
  (∀ x y, (st.1 y x).terrain = (g0 y x).terrain) ∧
  ownerInv g0 e c st.1 ∧
  (st.1 ay ax).owner = some e ∧
  fieldsInv g0 st.1

/-- State of the asset-transfer loop after the eliminated player's base at
`(ax, ay)` has been processed: the conqueror's base position now names the
captured base, the old base tile `(bx, b2)` has been reverted to plain, and
no other terrain has changed. -/
def phaseB (g0 : Nat → Nat → Tile) (e c ax ay bx b2 : Nat)
    (st : (Nat → Nat → Tile) × Option (Nat × Nat)) : Prop :=
  st.2 = some ((g0 ay ax).x, (g0 ay ax).y) ∧
  (st.1 b2 bx).terrain = TerrainType.plain ∧
  (∀ x y, ¬ (x = bx ∧ y = b2) → (st.1 y x).terrain = (g0 y x).terrain) ∧
  ownerInv g0 e c st.1 ∧
  (st.1 ay ax).owner = some c ∧
  fieldsInv g0 st.1

/-!  Basic lemmas about the grid primitives. -/

theorem setTile_apply (g : Nat → Nat → Tile) (x y : Nat) (t : Tile) (x' y' : Nat) :
    setTile g x y t y' x' = if y' = y ∧ x' = x then t else g y' x' := rfl

theorem setTile_self (g : Nat → Nat → Tile) (x y : Nat) (t : Tile) :
    setTile g x y t y x = t := by simp [setTile]

theorem setTile_other (g : Nat → Nat → Tile) (x y : Nat) (t : Tile) (x' y' : Nat)
    (h : ¬ (y' = y ∧ x' = x)) : setTile g x y t y' x' = g y' x' := by
  simp [setTile, h]

theorem mem_rowMajor (w h x y : Nat) : (x, y) ∈ rowMajor w h ↔ x < w ∧ y < h := by
  simp only [rowMajor, List.mem_flatMap, List.mem_map, List.mem_range]
  constructor
  · rintro ⟨a, ha, b, hb, hxy⟩
    cases hxy
    exact ⟨hb, ha⟩
  · rintro ⟨hx, hy⟩
    exact ⟨y, hy, x, hx, rfl⟩

theorem mem_pyRange (a b m : Nat) : m ∈ pyRange a b ↔ a ≤ m ∧ m < b := by
  rw [pyRange, List.mem_range']
  constructor
  · rintro ⟨i, hi, rfl⟩
    omega
  · rintro ⟨h1, h2⟩
    exact ⟨m - a, by omega, by omega⟩

theorem mem_visCoords (w h cx cy x y : Nat) :
    (x, y) ∈ visCoords w h cx cy ↔
      (cx - 2 ≤ x ∧ x < min w (cx + 3)) ∧ (cy - 2 ≤ y ∧ y < min h (cy + 3)) := by
  simp only [visCoords, List.mem_flatMap, List.mem_map, mem_pyRange]
  constructor
  · rintro ⟨a, ha, b, hb, hxy⟩
    cases hxy
    exact ⟨hb, ha⟩
  · rintro ⟨hx, hy⟩
    exact ⟨y, hy, x, hx, rfl⟩

theorem manhattan_le_two_iff (x y cx cy : Nat) :
    manhattan x y cx cy ≤ 2 ↔ (x - cx) + (cx - x) + ((y - cy) + (cy - y)) ≤ 2 := by
  simp only [manhattan]
  omega

/-!  The asset-transfer loop: preservation and owner-rewriting lemmas. -/

theorem transferStep_fields (w h e c : Nat) (st : (Nat → Nat → Tile) × Option (Nat × Nat))
    (a : Nat × Nat) (x y : Nat) :
    ((transferStep w h e c st a).1 y x).soldiers = (st.1 y x).soldiers ∧
    ((transferStep w h e c st a).1 y x).x = (st.1 y x).x ∧
    ((transferStep w h e c st a).1 y x).y = (st.1 y x).y ∧
    ((transferStep w h e c st a).1 y x).requiredSoldiers = (st.1 y x).requiredSoldiers ∧
    ((transferStep w h e c st a).1 y x).visibility = (st.1 y x).visibility := by
  simp only [transferStep]
  split
  · split
    · split
      · split
        · simp only [setTile]
          split_ifs <;> simp_all
        · simp only [setTile]
          split_ifs <;> simp_all
      · simp only [setTile]
        split_ifs <;> simp_all
    · simp only [setTile]
      split_ifs <;> simp_all
  · exact ⟨rfl, rfl, rfl, rfl, rfl⟩

theorem transferStep_owner (w h e c : Nat) (st : (Nat → Nat → Tile) × Option (Nat × Nat))
    (a : Nat × Nat) (x y : Nat) :
    ((transferStep w h e c st a).1 y x).owner =
      if (x, y) = a ∧ (st.1 y x).owner = some e then some c else (st.1 y x).owner := by
  simp only [transferStep]
  split
  · split
    · split
      · split
        · simp only [setTile]
          split_ifs <;> simp_all <;> aesop
        · simp only [setTile]
          split_ifs <;> simp_all <;> aesop
      · simp only [setTile]
        split_ifs <;> simp_all <;> aesop
    · simp only [setTile]
      split_ifs <;> simp_all <;> aesop
  · split_ifs <;> simp_all <;> aesop

theorem transferFold_fields (w h e c : Nat) (l : List (Nat × Nat))
    (st : (Nat → Nat → Tile) × Option (Nat × Nat)) (x y : Nat) :
    ((l.foldl (transferStep w h e c) st).1 y x).soldiers = (st.1 y x).soldiers ∧
    ((l.foldl (transferStep w h e c) st).1 y x).x = (st.1 y x).x ∧
    ((l.foldl (transferStep w h e c) st).1 y x).y = (st.1 y x).y ∧
    ((l.foldl (transferStep w h e c) st).1 y x).requiredSoldiers = (st.1 y x).requiredSoldiers ∧
    ((l.foldl (transferStep w h e c) st).1 y x).visibility = (st.1 y x).visibility := by
  induction l generalizing st with
  | nil => exact ⟨rfl, rfl, rfl, rfl, rfl⟩
  | cons a l ih =>
    have h1 := transferStep_fields w h e c st a x y
    have h2 := ih (transferStep w h e c st a)
    simp only [List.foldl_cons]
    exact ⟨h2.1.trans h1.1, h2.2.1.trans h1.2.1, h2.2.2.1.trans h1.2.2.1,
      h2.2.2.2.1.trans h1.2.2.2.1, h2.2.2.2.2.trans h1.2.2.2.2⟩

theorem transferFold_owner (w h e c : Nat) (l : List (Nat × Nat))
    (st : (Nat → Nat → Tile) × Option (Nat × Nat)) (x y : Nat) :
    ((l.foldl (transferStep w h e c) st).1 y x).owner =
      if (x, y) ∈ l ∧ (st.1 y x).owner = some e then some c else (st.1 y x).owner := by
  induction l generalizing st with
  | nil => simp
  | cons a l ih =>
    simp only [List.foldl_cons, List.mem_cons]
    rw [ih, transferStep_owner w h e c st a x y]
    by_cases hxa : (x, y) = a <;> by_cases ho : (st.1 y x).owner = some e <;>
      split_ifs <;> simp_all

theorem transferStep_phaseB (w h e c ax ay bx b2 : Nat) (g0 : Nat → Nat → Tile)
    (hec : e ≠ c) (hbp : ¬ (bx = ax ∧ b2 = ay))
    (st : (Nat → Nat → Tile) × Option (Nat × Nat)) (a : Nat × Nat)
    (hu : (g0 a.2 a.1).owner = some e → (g0 a.2 a.1).terrain = TerrainType.base → a = (ax, ay))
    (hB : phaseB g0 e c ax ay bx b2 st) :
    phaseB g0 e c ax ay bx b2 (transferStep w h e c st a) := by
  obtain ⟨h1, h2, h3, h4, h5, h6⟩ := hB
  by_cases hg : (st.1 a.2 a.1).owner = some e
  · have hg0 : (g0 a.2 a.1).owner = some e := by
      rcases h4 a.1 a.2 with h | ⟨h, h'⟩
      · rw [← h]; exact hg
      · rw [hg] at h'; exact absurd (Option.some.inj h') hec
    have hnb : ¬ (st.1 a.2 a.1).terrain = TerrainType.base := by
      intro hb
      by_cases hab : a.1 = bx ∧ a.2 = b2
      · rw [hab.1, hab.2] at hb
        rw [h2] at hb
        cases hb
      · have h3a := h3 a.1 a.2 hab
        rw [h3a] at hb
        have ha := hu hg0 hb
        rw [ha] at hg
        rw [h5] at hg
        exact hec (Option.some.inj hg).symm
    have hstep : transferStep w h e c st a
        = (setTile st.1 a.1 a.2 { st.1 a.2 a.1 with owner := some c }, st.2) := by
      simp only [transferStep, beq_iff_eq]
      rw [if_pos hg, if_neg hnb]
    have hter : ∀ x y,
        (setTile st.1 a.1 a.2 { st.1 a.2 a.1 with owner := some c } y x).terrain
          = (st.1 y x).terrain := by
      intro x y
      rw [setTile_apply]
      split_ifs with hc
      · rw [hc.1, hc.2]
      · rfl
    have hgrid : (transferStep w h e c st a).1
        = setTile st.1 a.1 a.2 { st.1 a.2 a.1 with owner := some c } := by rw [hstep]
    have hsnd : (transferStep w h e c st a).2 = st.2 := by rw [hstep]
    refine ⟨?_, ?_, ?_, ?_, ?_, ?_⟩
    · rw [hsnd]; exact h1
    · rw [hgrid, hter]; exact h2
    · intro x y hxy
      rw [hgrid, hter]; exact h3 x y hxy
    · intro x y
      rw [hgrid, setTile_apply]
      split_ifs with hc
      · right
        refine ⟨?_, rfl⟩
        rw [hc.1, hc.2]; exact hg0
      · exact h4 x y
    · rw [hgrid, setTile_apply]
      split_ifs with hc
      · rfl
      · exact h5
    · intro x y
      rw [hgrid, setTile_apply]
      split_ifs with hc
      · have h6a := h6 a.1 a.2
        constructor
        · rw [hc.1, hc.2]; exact h6a.1
        · rw [hc.1, hc.2]; exact h6a.2
      · exact h6 x y
  · have hstep : transferStep w h e c st a = st := by
      simp only [transferStep, beq_iff_eq]
      rw [if_neg hg]
    rw [hstep]
    exact ⟨h1, h2, h3, h4, h5, h6⟩

theorem transferStep_phaseA_keep (w h e c ax ay bx b2 : Nat) (g0 : Nat → Nat → Tile)
    (hec : e ≠ c)
    (st : (Nat → Nat → Tile) × Option (Nat × Nat)) (a : Nat × Nat)
    (hax : ¬ a = (ax, ay))
    (hu : (g0 a.2 a.1).owner = some e → (g0 a.2 a.1).terrain = TerrainType.base → a = (ax, ay))
    (hA : phaseA g0 e c ax ay bx b2 st) :
    phaseA g0 e c ax ay bx b2 (transferStep w h e c st a) := by
  obtain ⟨h1, h2, h3, h4, h5⟩ := hA
  by_cases hg : (st.1 a.2 a.1).owner = some e
  · have hg0 : (g0 a.2 a.1).owner = some e := by
      rcases h3 a.1 a.2 with h | ⟨h, h'⟩
      · rw [← h]; exact hg
      · rw [hg] at h'; exact absurd (Option.some.inj h') hec
    have hnb : ¬ (st.1 a.2 a.1).terrain = TerrainType.base := by
      intro hb
      rw [h2] at hb
      exact hax (hu hg0 hb)
    have hstep : transferStep w h e c st a
        = (setTile st.1 a.1 a.2 { st.1 a.2 a.1 with owner := some c }, st.2) := by
      simp only [transferStep, beq_iff_eq]
      rw [if_pos hg, if_neg hnb]
    have hgrid : (transferStep w h e c st a).1
        = setTile st.1 a.1 a.2 { st.1 a.2 a.1 with owner := some c } := by rw [hstep]
    have hsnd : (transferStep w h e c st a).2 = st.2 := by rw [hstep]
    refine ⟨?_, ?_, ?_, ?_, ?_⟩
    · rw [hsnd]; exact h1
    · intro x y
      rw [hgrid, setTile_apply]
      split_ifs with hc
      · rw [hc.1, hc.2]
        exact h2 a.1 a.2
      · exact h2 x y
    · intro x y
      rw [hgrid, setTile_apply]
      split_ifs with hc
      · right
        refine ⟨?_, rfl⟩
        rw [hc.1, hc.2]; exact hg0
      · exact h3 x y
    · rw [hgrid, setTile_apply]
      split_ifs with hc
      · exact absurd (Prod.ext_iff.mpr ⟨hc.2.symm, hc.1.symm⟩) hax
      · exact h4
    · intro x y
      rw [hgrid, setTile_apply]
      split_ifs with hc
      · have h5a := h5 a.1 a.2
        constructor
        · rw [hc.1, hc.2]; exact h5a.1
        · rw [hc.1, hc.2]; exact h5a.2
      · exact h5 x y
  · have hstep : transferStep w h e c st a = st := by
      simp only [transferStep, beq_iff_eq]
      rw [if_neg hg]
    rw [hstep]
    exact ⟨h1, h2, h3, h4, h5⟩

theorem transferStep_phaseA_to_B (w h e c ax ay bx b2 : Nat) (g0 : Nat → Nat → Tile)
    (hbp : ¬ (bx = ax ∧ b2 = ay)) (hbw : bx < w) (hbh : b2 < h)
    (hbase : (g0 ay ax).owner = some e ∧ (g0 ay ax).terrain = TerrainType.base)
    (st : (Nat → Nat → Tile) × Option (Nat × Nat))
    (hA : phaseA g0 e c ax ay bx b2 st) :
    phaseB g0 e c ax ay bx b2 (transferStep w h e c st (ax, ay)) := by
  obtain ⟨h1, h2, h3, h4, h5⟩ := hA
  have hterA : (st.1 ay ax).terrain = TerrainType.base := by
    rw [h2]; exact hbase.2
  have hstep : transferStep w h e c st (ax, ay) =
      (setTile (setTile st.1 ax ay { st.1 ay ax with owner := some c }) bx b2
         { (setTile st.1 ax ay { st.1 ay ax with owner := some c }) b2 bx with
             terrain := TerrainType.plain },
       some ((st.1 ay ax).x, (st.1 ay ax).y)) := by
    simp only [transferStep, beq_iff_eq]
    rw [if_pos h4, if_pos hterA, h1]
    dsimp only
    rw [if_pos (⟨hbw, hbh⟩ : bx < w ∧ b2 < h)]
  have hgrid : (transferStep w h e c st (ax, ay)).1
      = setTile (setTile st.1 ax ay { st.1 ay ax with owner := some c }) bx b2
          { (setTile st.1 ax ay { st.1 ay ax with owner := some c }) b2 bx with
              terrain := TerrainType.plain } := by rw [hstep]
  have hsnd : (transferStep w h e c st (ax, ay)).2
      = some ((st.1 ay ax).x, (st.1 ay ax).y) := by rw [hstep]
  have hg1own : ∀ x y, ((setTile st.1 ax ay { st.1 ay ax with owner := some c }) y x).owner
      = if y = ay ∧ x = ax then some c else (st.1 y x).owner := by
    intro x y
    rw [setTile_apply]
    split_ifs with hc
    · rfl
    · rfl
  refine ⟨?_, ?_, ?_, ?_, ?_, ?_⟩
  · rw [hsnd, (h5 ax ay).1, (h5 ax ay).2]
  · rw [hgrid, setTile_self]
  · intro x y hxy
    rw [hgrid, setTile_other _ _ _ _ _ _ (fun hc => hxy ⟨hc.2, hc.1⟩), setTile_apply]
    split_ifs with hc
    · rw [hc.1, hc.2]
      exact h2 ax ay
    · exact h2 x y
  · intro x y
    rw [hgrid, setTile_apply]
    split_ifs with hc
    · rw [hg1own bx b2]
      rw [if_neg (fun hh => hbp ⟨hh.2, hh.1⟩)]
      rw [hc.1, hc.2]
      exact h3 bx b2
    · rw [hg1own x y]
      split_ifs with hd
      · right
        refine ⟨?_, rfl⟩
        rw [hd.1, hd.2]; exact hbase.1
      · exact h3 x y
  · rw [hgrid, setTile_other _ _ _ _ _ _ (fun hc => hbp ⟨hc.2.symm, hc.1.symm⟩), hg1own ax ay,
      if_pos ⟨rfl, rfl⟩]
  · intro x y
    rw [hgrid, setTile_apply]
    split_ifs with hc
    · rw [setTile_apply]
      split_ifs with hd
      · have h5a := h5 ax ay
        constructor
        · rw [hc.1, hc.2, hd.1, hd.2]; exact h5a.1
        · rw [hc.1, hc.2, hd.1, hd.2]; exact h5a.2
      · have h5a := h5 bx b2
        constructor
        · rw [hc.1, hc.2]; exact h5a.1
        · rw [hc.1, hc.2]; exact h5a.2
    · rw [setTile_apply]
      split_ifs with hd
      · have h5a := h5 ax ay
        constructor
        · rw [hd.1, hd.2]; exact h5a.1
        · rw [hd.1, hd.2]; exact h5a.2
      · exact h5 x y

theorem transferFold_phaseB (w h e c ax ay bx b2 : Nat) (g0 : Nat → Nat → Tile)
    (hec : e ≠ c) (hbp : ¬ (bx = ax ∧ b2 = ay)) (l : List (Nat × Nat))
    (hu : ∀ a ∈ l, (g0 a.2 a.1).owner = some e →
      (g0 a.2 a.1).terrain = TerrainType.base → a = (ax, ay))
    (st : (Nat → Nat → Tile) × Option (Nat × Nat))
    (hB : phaseB g0 e c ax ay bx b2 st) :
    phaseB g0 e c ax ay bx b2 (l.foldl (transferStep w h e c) st) := by
  induction l generalizing st with
  | nil => exact hB
  | cons a l ih =>
    simp only [List.foldl_cons]
    exact ih (fun b hb => hu b (List.mem_cons_of_mem a hb)) _
      (transferStep_phaseB w h e c ax ay bx b2 g0 hec hbp st a
        (hu a (List.mem_cons_self a l)) hB)

theorem transferFold_phaseA (w h e c ax ay bx b2 : Nat) (g0 : Nat → Nat → Tile)
    (hec : e ≠ c) (hbp : ¬ (bx = ax ∧ b2 = ay)) (hbw : bx < w) (hbh : b2 < h)
    (hbase : (g0 ay ax).owner = some e ∧ (g0 ay ax).terrain = TerrainType.base)
    (l : List (Nat × Nat)) (hmem : (ax, ay) ∈ l)
    (hu : ∀ a ∈ l, (g0 a.2 a.1).owner = some e →
      (g0 a.2 a.1).terrain = TerrainType.base → a = (ax, ay))
    (st : (Nat → Nat → Tile) × Option (Nat × Nat))
    (hA : phaseA g0 e c ax ay bx b2 st) :
    phaseB g0 e c ax ay bx b2 (l.foldl (transferStep w h e c) st) := by
  induction l generalizing st with
  | nil => exact absurd hmem (List.not_mem_nil _)
  | cons a l ih =>
    simp only [List.foldl_cons]
    by_cases ha : a = (ax, ay)
    · subst ha
      exact transferFold_phaseB w h e c ax ay bx b2 g0 hec hbp l
        (fun b hb => hu b (List.mem_cons_of_mem _ hb)) _
        (transferStep_phaseA_to_B w h e c ax ay bx b2 g0 hbp hbw hbh hbase st hA)
    · have hmem' : (ax, ay) ∈ l := by
        rcases List.mem_cons.mp hmem with hh | hh
        · exact absurd hh.symm ha
        · exact hh
      exact ih hmem' (fun b hb => hu b (List.mem_cons_of_mem a hb)) _
        (transferStep_phaseA_keep w h e c ax ay bx b2 g0 hec st a ha
          (hu a (List.mem_cons_self a l)) hA)

/-!  Facts about `GameState.transferPlayerAssets` as a whole. -/

theorem transferAssets_tiles_fields (s : GameState) (e c x y : Nat) :
    ((s.transferPlayerAssets e c).tiles y x).soldiers = (s.tiles y x).soldiers ∧
    ((s.transferPlayerAssets e c).tiles y x).x = (s.tiles y x).x ∧
    ((s.transferPlayerAssets e c).tiles y x).y = (s.tiles y x).y ∧
    ((s.transferPlayerAssets e c).tiles y x).requiredSoldiers = (s.tiles y x).requiredSoldiers ∧
    ((s.transferPlayerAssets e c).tiles y x).visibility = (s.tiles y x).visibility := by
  unfold GameState.transferPlayerAssets
  cases h1 : s.findPlayer e with
  | none => exact ⟨rfl, rfl, rfl, rfl, rfl⟩
  | some pe =>
    cases h2 : s.findPlayer c with
    | none => exact ⟨rfl, rfl, rfl, rfl, rfl⟩
    | some pc =>
      dsimp only
      split_ifs with hlen
      · exact transferFold_fields _ _ _ _ _ _ x y
      · exact transferFold_fields _ _ _ _ _ _ x y

theorem transferAssets_owner_shape (s : GameState) (e c x y : Nat) :
    ((s.transferPlayerAssets e c).tiles y x).owner = (s.tiles y x).owner ∨
    ((s.tiles y x).owner = some e ∧ ((s.transferPlayerAssets e c).tiles y x).owner = some c) := by
  unfold GameState.transferPlayerAssets
  cases h1 : s.findPlayer e with
  | none => exact Or.inl rfl
  | some pe =>
    cases h2 : s.findPlayer c with
    | none => exact Or.inl rfl
    | some pc =>
      dsimp only
      split_ifs with hlen
      · rw [transferFold_owner]
        split_ifs with hcond
        · exact Or.inr ⟨hcond.2, rfl⟩
        · exact Or.inl rfl
      · rw [transferFold_owner]
        split_ifs with hcond
        · exact Or.inr ⟨hcond.2, rfl⟩
        · exact Or.inl rfl

theorem transferAssets_owner_eq (s : GameState) (e c x y : Nat) (pe pc : Player)
    (h1 : s.findPlayer e = some pe) (h2 : s.findPlayer c = some pc)
    (hx : x < s.mapWidth) (hy : y < s.mapHeight) :
    ((s.transferPlayerAssets e c).tiles y x).owner =
      if (s.tiles y x).owner = some e then some c else (s.tiles y x).owner := by
  unfold GameState.transferPlayerAssets
  rw [h1, h2]
  dsimp only
  split_ifs with hlen hcond hcond
  · rw [transferFold_owner]
    rw [if_pos ⟨(mem_rowMajor _ _ _ _).mpr ⟨hx, hy⟩, hcond⟩]
  · rw [transferFold_owner]
    rw [if_neg (fun hh => hcond hh.2)]
  · rw [transferFold_owner]
    rw [if_pos ⟨(mem_rowMajor _ _ _ _).mpr ⟨hx, hy⟩, hcond⟩]
  · rw [transferFold_owner]
    rw [if_neg (fun hh => hcond hh.2)]

theorem transferAssets_gameOverType (s : GameState) (e c : Nat) :
    (s.transferPlayerAssets e c).gameOverType = s.gameOverType := by
  unfold GameState.transferPlayerAssets
  cases h1 : s.findPlayer e with
  | none => rfl
  | some pe =>
    cases h2 : s.findPlayer c with
    | none => rfl
    | some pc =>
      dsimp only
      split_ifs with hlen <;> rfl

theorem transferAssets_dims (s : GameState) (e c : Nat) :
    (s.transferPlayerAssets e c).mapWidth = s.mapWidth ∧
    (s.transferPlayerAssets e c).mapHeight = s.mapHeight := by
  unfold GameState.transferPlayerAssets
  cases h1 : s.findPlayer e with
  | none => exact ⟨rfl, rfl⟩
  | some pe =>
    cases h2 : s.findPlayer c with
    | none => exact ⟨rfl, rfl⟩
    | some pc =>
      dsimp only
      split_ifs with hlen <;> exact ⟨rfl, rfl⟩

theorem transferAssets_elim_flags (s : GameState) (e c : Nat) (pe pc : Player)
    (h1 : s.findPlayer e = some pe) (h2 : s.findPlayer c = some pc) :
    ∀ p ∈ (s.transferPlayerAssets e c).players,
      p.id = e → p.isAlive = false ∧ p.isSpectator = true := by
  unfold GameState.transferPlayerAssets
  rw [h1, h2]
  dsimp only
  have hcore : ∀ p ∈ (s.players.map (fun p =>
        if p.id == c then
          { p with basePosition := ((rowMajor s.mapWidth s.mapHeight).foldl
              (transferStep s.mapWidth s.mapHeight e c) (s.tiles, pc.basePosition)).2 }
        else p)).map (fun p => if p.id == e then p.eliminate else p),
      p.id = e → p.isAlive = false ∧ p.isSpectator = true := by
    intro p hp hpe
    rw [List.mem_map] at hp
    obtain ⟨q, hq, rfl⟩ := hp
    by_cases hqe : q.id == e
    · rw [if_pos hqe]
      exact ⟨rfl, rfl⟩
    · rw [if_neg hqe] at hpe ⊢
      exact absurd (by simp [hpe]) hqe
  split_ifs with hlen
  · exact hcore
  · exact hcore

theorem transferAssets_over (s : GameState) (e c : Nat) (pe pc : Player)
    (h1 : s.findPlayer e = some pe) (h2 : s.findPlayer c = some pc)
    (hlen : ((s.transferPlayerAssets e c).players.filter
        (fun p => p.isAlive && !p.isSpectator)).length ≤ 1) :
    (s.transferPlayerAssets e c).gameOver = true ∧
    ∀ p, ((s.transferPlayerAssets e c).players.filter
        (fun p => p.isAlive && !p.isSpectator)).head? = some p →
      (s.transferPlayerAssets e c).winner = some (WinnerVal.name p.name) := by
  revert hlen
  unfold GameState.transferPlayerAssets
  rw [h1, h2]
  dsimp only
  split_ifs with hcond
  · intro hlen
    refine ⟨rfl, ?_⟩
    intro p hp
    rw [hp]
  · intro hlen
    exact absurd hlen hcond


theorem transferAssets_soldiers (s : GameState) (e c x y : Nat) :
    ((s.transferPlayerAssets e c).tiles y x).soldiers = (s.tiles y x).soldiers :=
  (transferAssets_tiles_fields s e c x y).1

theorem transferAssets_owner_keep_c (s : GameState) (e c x y : Nat)
    (hyp : (s.tiles y x).owner = some c) :
    ((s.transferPlayerAssets e c).tiles y x).owner = some c := by
  rcases transferAssets_owner_shape s e c x y with hsh | ⟨hh, hsh⟩
  · rw [hsh, hyp]
  · exact hsh

theorem processMove_master (s : GameState) (fromX fromY toX toY pid : Nat) (s' : GameState)
    (h : s.processMove fromX fromY toX toY pid = (true, s')) :
    (s.tiles fromY fromX).owner = some pid ∧
    1 < (s.tiles fromY fromX).soldiers ∧
    (s'.tiles fromY fromX).soldiers = 1 ∧
    ((s.tiles toY toX).owner ≠ some pid →
      ((s.tiles fromY fromX).soldiers - 1 > (s.tiles toY toX).soldiers →
        (s'.tiles toY toX).owner = some pid ∧
        (s'.tiles toY toX).soldiers
          = ((s.tiles fromY fromX).soldiers - 1) - (s.tiles toY toX).soldiers) ∧
      ((s.tiles fromY fromX).soldiers - 1 = (s.tiles toY toX).soldiers →
        (s'.tiles toY toX).owner = none ∧ (s'.tiles toY toX).soldiers = 0) ∧
      ((s.tiles fromY fromX).soldiers - 1 < (s.tiles toY toX).soldiers →
        (s'.tiles toY toX).owner = (s.tiles toY toX).owner ∧
        (s'.tiles toY toX).soldiers
          = (s.tiles toY toX).soldiers - ((s.tiles fromY fromX).soldiers - 1))) ∧
    ((s.tiles toY toX).owner = some pid →
      (s'.tiles toY toX).owner = some pid ∧
      (¬ (toX = fromX ∧ toY = fromY) →
        (s'.tiles toY toX).soldiers
          = (s.tiles toY toX).soldiers + ((s.tiles fromY fromX).soldiers - 1))) := by
  simp only [GameState.processMove] at h
  by_cases hb1 : fromX < s.mapWidth ∧ fromY < s.mapHeight
  case neg => rw [if_pos hb1] at h; simp at h
  rw [if_neg (not_not_intro hb1)] at h
  by_cases hb2 : toX < s.mapWidth ∧ toY < s.mapHeight
  case neg => rw [if_pos hb2] at h; simp at h
  rw [if_neg (not_not_intro hb2)] at h
  by_cases ho : (s.tiles fromY fromX).owner = some pid
  case neg => rw [if_pos ho] at h; simp at h
  rw [if_neg (not_not_intro ho)] at h
  cases hp : (s.tiles toY toX).isPassable with
  | false =>
    rw [if_pos (by rw [hp]; rfl)] at h
    simp at h
  | true =>
    rw [if_neg (by rw [hp]; exact Bool.false_ne_true)] at h
    by_cases hs1 : (s.tiles fromY fromX).soldiers ≤ 1
    case pos => rw [if_pos hs1] at h; simp at h
    rw [if_neg hs1] at h
    rw [Prod.mk.injEq] at h
    replace h := h.2
    refine ⟨ho, by omega, ?_⟩
    cases hto : (s.tiles toY toX).owner with
    | some q =>
      by_cases hq : q = pid
      · -- friendly destination
        subst hq
        rw [hto] at h
        simp only [ne_eq, not_true_eq_false, if_false, bne_self_eq_false, Bool.and_false,
          Bool.false_eq_true, ite_false, reduceCtorEq] at h
        subst h
        refine ⟨?_, ?_, ?_⟩
        · dsimp only
          rw [setTile_self]
        · intro hne
          exact absurd rfl hne
        · intro _
          constructor
          · dsimp only
            by_cases hft : toY = fromY ∧ toX = fromX
            · rw [setTile_apply, if_pos hft, ← hft.1, ← hft.2, setTile_self]
            · rw [setTile_other _ _ _ _ _ _ hft, setTile_self]
          · intro hne
            dsimp only
            rw [setTile_other _ _ _ _ _ _ (fun hc => hne ⟨hc.2, hc.1⟩), setTile_self]
      · -- enemy destination
        have hne : ¬ (toY = fromY ∧ toX = fromX) := by
          intro hc
          rw [hc.1, hc.2, ho] at hto
          exact hq (Option.some.inj hto).symm
        rw [hto] at h
        simp only [ne_eq, Option.some.injEq, hq, not_false_eq_true, if_true,
          Option.isSome_some, Bool.and_true, bne_iff_ne, Option.some.injEq] at h
        by_cases hgt : (s.tiles fromY fromX).soldiers - 1 > (s.tiles toY toX).soldiers
        · rw [if_pos hgt] at h
          split at h
          · -- a base-owner candidate was found; the capture guard passes
            rw [setTile_other _ _ _ _ _ _ hne, setTile_self] at h
            dsimp only at h
            rw [ho] at h
            rw [if_pos (beq_self_eq_true (some pid))] at h
            subst h
            refine ⟨?_, ?_, ?_⟩
            · rw [transferAssets_soldiers]
              dsimp only
              rw [setTile_self]
            · intro _
              refine ⟨?_, ?_, ?_⟩
              · intro _
                constructor
                · apply transferAssets_owner_keep_c
                  dsimp only
                  rw [setTile_other _ _ _ _ _ _ hne, setTile_self]
                · rw [transferAssets_soldiers]
                  dsimp only
                  rw [setTile_other _ _ _ _ _ _ hne, setTile_self]
              · intro hcontra
                omega
              · intro hcontra
                omega
            · intro hfr
              exact absurd (Option.some.inj hfr) hq
          · -- no base-owner candidate
            subst h
            refine ⟨?_, ?_, ?_⟩
            · dsimp only
              rw [setTile_self]
            · intro _
              refine ⟨?_, ?_, ?_⟩
              · intro _
                constructor
                · dsimp only
                  rw [setTile_other _ _ _ _ _ _ hne, setTile_self, ho]
                · dsimp only
                  rw [setTile_other _ _ _ _ _ _ hne, setTile_self]
              · intro hcontra
                omega
              · intro hcontra
                omega
            · intro hfr
              exact absurd (Option.some.inj hfr) hq
        · rw [if_neg hgt] at h
          by_cases heq2 : (s.tiles fromY fromX).soldiers - 1 = (s.tiles toY toX).soldiers
          · -- mutual annihilation
            rw [if_pos heq2] at h
            split at h
            · rw [setTile_other _ _ _ _ _ _ hne, setTile_self] at h
              dsimp only at h
              rw [if_neg (by simp)] at h
              subst h
              refine ⟨?_, ?_, ?_⟩
              · dsimp only
                rw [setTile_self]
              · intro _
                refine ⟨?_, ?_, ?_⟩
                · intro hcontra
                  omega
                · intro _
                  constructor
                  · dsimp only
                    rw [setTile_other _ _ _ _ _ _ hne, setTile_self]
                  · dsimp only
                    rw [setTile_other _ _ _ _ _ _ hne, setTile_self]
                · intro hcontra
                  omega
              · intro hfr
                exact absurd (Option.some.inj hfr) hq
            · subst h
              refine ⟨?_, ?_, ?_⟩
              · dsimp only
                rw [setTile_self]
              · intro _
                refine ⟨?_, ?_, ?_⟩
                · intro hcontra
                  omega
                · intro _
                  constructor
                  · dsimp only
                    rw [setTile_other _ _ _ _ _ _ hne, setTile_self]
                  · dsimp only
                    rw [setTile_other _ _ _ _ _ _ hne, setTile_self]
                · intro hcontra
                  omega
              · intro hfr
                exact absurd (Option.some.inj hfr) hq
          · -- attack repelled
            rw [if_neg heq2] at h
            split at h
            · rw [setTile_other _ _ _ _ _ _ hne, setTile_self] at h
              dsimp only at h
              rw [if_neg (by simp [hq])] at h
              subst h
              refine ⟨?_, ?_, ?_⟩
              · dsimp only
                rw [setTile_self]
              · intro _
                refine ⟨?_, ?_, ?_⟩
                · intro hcontra
                  omega
                · intro hcontra
                  omega
                · intro _
                  constructor
                  · dsimp only
                    rw [setTile_other _ _ _ _ _ _ hne, setTile_self]
                  · dsimp only
                    rw [setTile_other _ _ _ _ _ _ hne, setTile_self]
              · intro hfr
                exact absurd (Option.some.inj hfr) hq
            · subst h
              refine ⟨?_, ?_, ?_⟩
              · dsimp only
                rw [setTile_self]
              · intro _
                refine ⟨?_, ?_, ?_⟩
                · intro hcontra
                  omega
                · intro hcontra
                  omega
                · intro _
                  constructor
                  · dsimp only
                    rw [setTile_other _ _ _ _ _ _ hne, setTile_self]
                  · dsimp only
                    rw [setTile_other _ _ _ _ _ _ hne, setTile_self]
              · intro hfr
                exact absurd (Option.some.inj hfr) hq
    | none =>
      have hne : ¬ (toY = fromY ∧ toX = fromX) := by
        intro hc
        rw [hc.1, hc.2, ho] at hto
        cases hto
      rw [hto] at h
      simp only [ne_eq, reduceCtorEq, not_false_eq_true, if_true, Option.isSome_none,
        Bool.and_false, Bool.false_and, Bool.false_eq_true, ite_false] at h
      by_cases hd0 : (s.tiles toY toX).soldiers = 0
      · rw [if_pos hd0] at h
        subst h
        refine ⟨?_, ?_, ?_⟩
        · dsimp only
          rw [setTile_self]
        · intro _
          refine ⟨?_, ?_, ?_⟩
          · intro _
            constructor
            · dsimp only
              rw [setTile_other _ _ _ _ _ _ hne, setTile_self]
              split_ifs <;> exact ho
            · dsimp only
              rw [setTile_other _ _ _ _ _ _ hne, setTile_self]
              split_ifs <;> (dsimp only; omega)
          · intro hcontra
            omega
          · intro hcontra
            omega
        · intro hfr
          cases hfr
      · rw [if_neg hd0] at h
        by_cases hgt : (s.tiles fromY fromX).soldiers - 1 > (s.tiles toY toX).soldiers
        · rw [if_pos hgt] at h
          subst h
          refine ⟨?_, ?_, ?_⟩
          · dsimp only
            rw [setTile_self]
          · intro _
            refine ⟨?_, ?_, ?_⟩
            · intro _
              constructor
              · dsimp only
                rw [setTile_other _ _ _ _ _ _ hne, setTile_self]
                split_ifs <;> exact ho
              · dsimp only
                rw [setTile_other _ _ _ _ _ _ hne, setTile_self]
                split_ifs <;> rfl
            · intro hcontra
              omega
            · intro hcontra
              omega
          · intro hfr
            cases hfr
        · rw [if_neg hgt] at h
          by_cases heq2 : (s.tiles fromY fromX).soldiers - 1 = (s.tiles toY toX).soldiers
          · rw [if_pos heq2] at h
            subst h
            refine ⟨?_, ?_, ?_⟩
            · dsimp only
              rw [setTile_self]
            · intro _
              refine ⟨?_, ?_, ?_⟩
              · intro hcontra
                omega
              · intro _
                constructor
                · dsimp only
                  rw [setTile_other _ _ _ _ _ _ hne, setTile_self]
                · dsimp only
                  rw [setTile_other _ _ _ _ _ _ hne, setTile_self]
              · intro hcontra
                omega
            · intro hfr
              cases hfr
          · rw [if_neg heq2] at h
            subst h
            refine ⟨?_, ?_, ?_⟩
            · dsimp only
              rw [setTile_self]
            · intro _
              refine ⟨?_, ?_, ?_⟩
              · intro hcontra
                omega
              · intro hcontra
                omega
              · intro _
                constructor
                · dsimp only
                  rw [setTile_other _ _ _ _ _ _ hne, setTile_self]
                · dsimp only
                  rw [setTile_other _ _ _ _ _ _ hne, setTile_self]
            · intro hfr
              cases hfr

/-!  Claim theorems. -/

/-- Claim C1: every successful `_process_move` leaves exactly 1 soldier on
the source tile, and an attacked destination (a tile not owned by the acting
player) follows the three-way combat rule on `movable = source.soldiers - 1`
against the destination's current garrison: strictly more attackers capture
with the difference, equality leaves a neutral empty tile, and fewer
attackers leave the owner unchanged with the garrison reduced by `movable`. -/
theorem claim_C1 (s : GameState) (fromX fromY toX toY pid : Nat) (s' : GameState)
    (h : s.processMove fromX fromY toX toY pid = (true, s')) :
    (s'.tiles fromY fromX).soldiers = 1 ∧
    ((s.tiles toY toX).owner ≠ some pid →
      ((s.tiles fromY fromX).soldiers - 1 > (s.tiles toY toX).soldiers →
        (s'.tiles toY toX).owner = some pid ∧
        (s'.tiles toY toX).soldiers
          = ((s.tiles fromY fromX).soldiers - 1) - (s.tiles toY toX).soldiers) ∧
      ((s.tiles fromY fromX).soldiers - 1 = (s.tiles toY toX).soldiers →
        (s'.tiles toY toX).owner = none ∧ (s'.tiles toY toX).soldiers = 0) ∧
      ((s.tiles fromY fromX).soldiers - 1 < (s.tiles toY toX).soldiers →
        (s'.tiles toY toX).owner = (s.tiles toY toX).owner ∧
        (s'.tiles toY toX).soldiers
          = (s.tiles toY toX).soldiers - ((s.tiles fromY fromX).soldiers - 1))) := by
  obtain ⟨-, -, h3, h4, -⟩ := processMove_master s fromX fromY toX toY pid s' h
  exact ⟨h3, h4⟩

/-- Witness for C1: on a 3×1 strip, player 1 moves 5 soldiers from (0,0)
onto the virgin plain (1,0): the source keeps 1 soldier, the destination is
captured with 4. -/
theorem claim_C1_witness :
    ((exState1.processMove 0 0 1 0 1).2.tiles 0 0).soldiers = 1 ∧
    ((exState1.processMove 0 0 1 0 1).2.tiles 0 1).owner = some 1 ∧
    ((exState1.processMove 0 0 1 0 1).2.tiles 0 1).soldiers = 4 := by
  have hm := claim_C1 exState1 0 0 1 0 1 (exState1.processMove 0 0 1 0 1).2 rfl
  have hatt := (hm.2 (by decide)).1 (by decide)
  exact ⟨hm.1, hatt.1, hatt.2.trans (by decide)⟩

/-- Claim C2: a successful move onto a destination with 0 garrison soldiers
always captures outright: the destination's owner becomes the acting player
and its soldiers become the whole movable stack. -/
theorem claim_C2 (s : GameState) (fromX fromY toX toY pid : Nat) (s' : GameState)
    (h : s.processMove fromX fromY toX toY pid = (true, s'))
    (hd0 : (s.tiles toY toX).soldiers = 0) :
    (s'.tiles toY toX).owner = some pid ∧
    (s'.tiles toY toX).soldiers = (s.tiles fromY fromX).soldiers - 1 := by
  obtain ⟨ho, hs, hsrc, hatt, hfr⟩ := processMove_master s fromX fromY toX toY pid s' h
  by_cases hown : (s.tiles toY toX).owner = some pid
  · have hf := hfr hown
    have hnef : ¬ (toX = fromX ∧ toY = fromY) := by
      intro hc
      rw [hc.1, hc.2] at hd0
      omega
    refine ⟨hf.1, ?_⟩
    rw [hf.2 hnef, hd0]
    omega
  · have ha := hatt hown
    have hcap := ha.1 (by omega)
    refine ⟨hcap.1, ?_⟩
    rw [hcap.2, hd0]
    omega

/-- Witness for C2: the same 3×1 capture of a 0-garrison plain: owner 1,
soldiers 4 = movable. -/
theorem claim_C2_witness :
    (exState1.tiles 0 1).soldiers = 0 ∧
    ((exState1.processMove 0 0 1 0 1).2.tiles 0 1).owner = some 1 ∧
    ((exState1.processMove 0 0 1 0 1).2.tiles 0 1).soldiers
      = (exState1.tiles 0 0).soldiers - 1 := by
  have hm := claim_C2 exState1 0 0 1 0 1 (exState1.processMove 0 0 1 0 1).2 rfl (by decide)
  exact ⟨by decide, hm.1, hm.2⟩

/-- Claim C10: `remove_player` neutralizes exactly the removed player's
tiles, keeping their soldiers, additionally reverting an owned base to plain
with requirement 0, and leaves every other tile entirely unchanged. -/
theorem claim_C10 (s : GameState) (pid : Nat) (p : Player)
    (hp : s.findPlayer pid = some p) :
    ∀ x y,
      ((s.tiles y x).owner = some pid →
        ((s.removePlayer pid).tiles y x).owner = none ∧
        ((s.removePlayer pid).tiles y x).soldiers = (s.tiles y x).soldiers ∧
        ((s.removePlayer pid).tiles y x).x = (s.tiles y x).x ∧
        ((s.removePlayer pid).tiles y x).y = (s.tiles y x).y ∧
        ((s.removePlayer pid).tiles y x).visibility = (s.tiles y x).visibility ∧
        ((s.tiles y x).terrain = TerrainType.base →
          ((s.removePlayer pid).tiles y x).terrain = TerrainType.plain ∧
          ((s.removePlayer pid).tiles y x).requiredSoldiers = 0) ∧
        ((s.tiles y x).terrain ≠ TerrainType.base →
          ((s.removePlayer pid).tiles y x).terrain = (s.tiles y x).terrain ∧
          ((s.removePlayer pid).tiles y x).requiredSoldiers
            = (s.tiles y x).requiredSoldiers)) ∧
      ((s.tiles y x).owner ≠ some pid → (s.removePlayer pid).tiles y x = s.tiles y x) := by
  intro x y
  unfold GameState.removePlayer
  rw [hp]
  simp only [Option.isSome_some, eq_self_iff_true, if_true]
  constructor
  · intro how
    rw [if_pos (beq_iff_eq.mpr how)]
    by_cases hb : (s.tiles y x).terrain = TerrainType.base
    · rw [if_pos (beq_iff_eq.mpr hb)]
      exact ⟨rfl, rfl, rfl, rfl, rfl, fun _ => ⟨rfl, rfl⟩, fun hnb => absurd hb hnb⟩
    · rw [if_neg (fun hc => hb (beq_iff_eq.mp hc))]
      exact ⟨rfl, rfl, rfl, rfl, rfl, fun hbb => absurd hbb hb, fun _ => ⟨rfl, rfl⟩⟩
  · intro how
    rw [if_neg (fun hc => how (beq_iff_eq.mp hc))]

/-- Witness for C10: removing player 1 from the 3×1 strip neutralizes (0,0)
keeping its 5 soldiers, and leaves the virgin plain (1,0) unchanged. -/
theorem claim_C10_witness :
    ((exState1.removePlayer 1).tiles 0 0).owner = none ∧
    ((exState1.removePlayer 1).tiles 0 0).soldiers = (exState1.tiles 0 0).soldiers ∧
    (exState1.removePlayer 1).tiles 0 1 = exState1.tiles 0 1 := by
  have hm := claim_C10 exState1 1 exPlayer1 rfl
  have h1 := (hm 0 0).1 (by decide)
  exact ⟨h1.1, h1.2.1, (hm 1 0).2 (by decide)⟩

/-- Claim C3 counterexample: `move_soldiers` accepts a source tile holding
exactly 1 soldier (its garrison check is `soldiers <= 0`), queuing the
request, although the claim requires rejection at ≤ 1. -/
theorem claim_C3_counterexample :
    (exState2.tiles 0 0).owner = some 1 ∧
    (exState2.tiles 0 0).soldiers = 1 ∧
    (exState2.moveSoldiers 0 0 1 0 1).1 = true ∧
    ((exState2.moveSoldiers 0 0 1 0 1).2.pendingMoves 1).length = 1 := by
  refine ⟨rfl, rfl, rfl, rfl⟩

/-- Claim C3 (amended): `move_soldiers` rejects — returning `false` with no
state change — when the source is out of bounds, unowned or owned by another
player, or holds 0 soldiers, or when the destination is out of bounds or
impassable; otherwise it returns `true` and appends exactly one request with
the current tick to the acting player's queue, leaving every other player's
queue unchanged.  (The claim's ≤ 1 garrison check is enforced only at
execution time; at enqueue time the code checks `soldiers <= 0`.) -/
theorem claim_C3 (s : GameState) (fromX fromY toX toY pid : Nat) :
    ((¬ (fromX < s.mapWidth ∧ fromY < s.mapHeight) ∨
      ¬ (toX < s.mapWidth ∧ toY < s.mapHeight) ∨
      (s.tiles fromY fromX).owner ≠ some pid ∨
      (s.tiles fromY fromX).soldiers = 0 ∨
      ¬ (s.tiles toY toX).isPassable = true) →
      s.moveSoldiers fromX fromY toX toY pid = (false, s)) ∧
    ((fromX < s.mapWidth ∧ fromY < s.mapHeight) →
      (toX < s.mapWidth ∧ toY < s.mapHeight) →
      (s.tiles fromY fromX).owner = some pid →
      0 < (s.tiles fromY fromX).soldiers →
      (s.tiles toY toX).isPassable = true →
      (s.moveSoldiers fromX fromY toX toY pid).1 = true ∧
      (s.moveSoldiers fromX fromY toX toY pid).2.pendingMoves pid
        = s.pendingMoves pid
          ++ [{ fromX := fromX, fromY := fromY, toX := toX, toY := toY,
                playerId := pid, createdTick := s.currentTick }] ∧
      (∀ k, k ≠ pid →
        (s.moveSoldiers fromX fromY toX toY pid).2.pendingMoves k
          = s.pendingMoves k)) := by
  constructor
  · intro hrej
    unfold GameState.moveSoldiers
    by_cases h1 : fromX < s.mapWidth ∧ fromY < s.mapHeight
    case neg => rw [if_pos h1]
    rw [if_neg (not_not_intro h1)]
    by_cases h2 : toX < s.mapWidth ∧ toY < s.mapHeight
    case neg => rw [if_pos h2]
    rw [if_neg (not_not_intro h2)]
    by_cases h3 : (s.tiles fromY fromX).owner = some pid
    case neg => rw [if_pos h3]
    rw [if_neg (not_not_intro h3)]
    by_cases h4 : (s.tiles fromY fromX).soldiers ≤ 0
    case pos => rw [if_pos h4]
    rw [if_neg h4]
    by_cases h5 : (s.tiles toY toX).isPassable = true
    case neg =>
      rw [if_pos (by simp [Bool.not_eq_true] at h5 ⊢; exact h5)]
    rcases hrej with hr | hr | hr | hr | hr
    · exact absurd h1 hr
    · exact absurd h2 hr
    · exact absurd h3 hr
    · omega
    · exact absurd h5 hr
  · intro h1 h2 h3 h4 h5
    unfold GameState.moveSoldiers
    rw [if_neg (not_not_intro h1), if_neg (not_not_intro h2), if_neg (not_not_intro h3),
      if_neg (by omega), if_neg (by simp [h5])]
    refine ⟨rfl, ?_, ?_⟩
    · dsimp only
      rw [if_pos rfl]
    · intro k hk
      dsimp only
      rw [if_neg hk]

/-- Witness for C3 (amended): on the 3×1 strip the enqueue succeeds and the
queue receives exactly the one expected request. -/
theorem claim_C3_witness :
    (exState1.moveSoldiers 0 0 1 0 1).1 = true ∧
    ((exState1.moveSoldiers 0 0 1 0 1).2.pendingMoves 1).length = 1 ∧
    (exState1.moveSoldiers 0 0 1 0 1).2.pendingMoves 2 = [] := by
  have hm := (claim_C3 exState1 0 0 1 0 1).2 (by decide) (by decide) (by decide)
    (by decide) (by decide)
  refine ⟨hm.1, ?_, ?_⟩
  · rw [hm.2.1]
    rfl
  · rw [hm.2.2 2 (by decide)]
    rfl

/-- Claim C5 counterexample: after an asset transfer that leaves only one
player alive, the match is marked over and the winner recorded (as a name
string), but `game_over_type` is NOT set to normal — it stays unset — so the
claim's `overReason=Normal` fails on the transfer path. -/
theorem claim_C5_counterexample :
    ((exStateT.transferPlayerAssets 1 2).players.filter
        (fun p => p.isAlive)).length ≤ 1 ∧
    (exStateT.transferPlayerAssets 1 2).gameOver = true ∧
    (exStateT.transferPlayerAssets 1 2).gameOverType ≠ some GameOverType.normal ∧
    (exStateT.transferPlayerAssets 1 2).winner = some (WinnerVal.name "bob") := by
  decide

/-- Claim C5 (amended): the per-tick `_check_game_over` marks the match over
with `game_over_type = normal` and the head of the alive list as winner when
at most one player is alive, and does nothing otherwise; the asset-transfer
path never touches `game_over_type`, and when at most one alive non-spectator
remains after the transfer it sets `game_over` and records the survivor's
NAME as winner. -/
theorem claim_C5 (s : GameState) :
    ((s.players.filter (fun p => p.isAlive)).length ≤ 1 →
      (s.checkGameOver).gameOver = true ∧
      (s.checkGameOver).gameOverType = some GameOverType.normal ∧
      ∀ p, (s.players.filter (fun p => p.isAlive)).head? = some p →
        (s.checkGameOver).winner = some (WinnerVal.player p)) ∧
    (1 < (s.players.filter (fun p => p.isAlive)).length → s.checkGameOver = s) ∧
    ∀ e c pe pc, s.findPlayer e = some pe → s.findPlayer c = some pc →
      (s.transferPlayerAssets e c).gameOverType = s.gameOverType ∧
      (((s.transferPlayerAssets e c).players.filter
          (fun p => p.isAlive && !p.isSpectator)).length ≤ 1 →
        (s.transferPlayerAssets e c).gameOver = true ∧
        ∀ p, ((s.transferPlayerAssets e c).players.filter
            (fun p => p.isAlive && !p.isSpectator)).head? = some p →
          (s.transferPlayerAssets e c).winner = some (WinnerVal.name p.name)) := by
  refine ⟨?_, ?_, ?_⟩
  · intro hlen
    unfold GameState.checkGameOver
    rw [if_pos hlen]
    cases hh : (s.players.filter (fun p => p.isAlive)).head? with
    | none =>
      refine ⟨rfl, rfl, ?_⟩
      intro p hp
      cases hp
    | some q =>
      refine ⟨rfl, rfl, ?_⟩
      intro p hp
      obtain rfl := Option.some.inj hp
      rfl
  · intro hlen
    unfold GameState.checkGameOver
    rw [if_neg (by omega)]
  · intro e c pe pc he hc
    exact ⟨transferAssets_gameOverType s e c,
      fun hlen => transferAssets_over s e c pe pc he hc hlen⟩

/-- Witness for C5: a lone alive player triggers the normal win check, and
the concrete transfer on `exStateT` leaves `game_over_type` unchanged while
marking the game over. -/
theorem claim_C5_witness :
    (exStateW.checkGameOver).gameOver = true ∧
    (exStateW.checkGameOver).gameOverType = some GameOverType.normal ∧
    (exStateW.checkGameOver).winner = some (WinnerVal.player exPlayer1) ∧
    (exStateT.transferPlayerAssets 1 2).gameOverType = exStateT.gameOverType ∧
    (exStateT.transferPlayerAssets 1 2).gameOver = true := by
  have h1 := (claim_C5 exStateW).1 (by decide)
  have h3 := (claim_C5 exStateT).2.2 1 2
    { exPlayer1 with basePosition := some (0, 0) }
    { exPlayer2 with basePosition := some (2, 0) } rfl rfl
  exact ⟨h1.1, h1.2.1, h1.2.2 exPlayer1 (by decide), h3.1, (h3.2 (by decide)).1⟩

/-!  Counting helpers for the stats folds of `get_player_stats`. -/

theorem foldl_if_shift (l : List (Nat × Nat)) (P : Nat × Nat → Bool) (f : Nat × Nat → Nat) :
    ∀ a : Nat, l.foldl (fun acc xy => if P xy then acc + f xy else acc) a
      = a + l.foldl (fun acc xy => if P xy then acc + f xy else acc) 0 := by
  induction l with
  | nil => intro a; simp
  | cons b l ih =>
    intro a
    simp only [List.foldl_cons]
    by_cases hp : P b
    · rw [if_pos hp, if_pos hp, ih (a + f b), ih (0 + f b)]
      omega
    · rw [if_neg hp, if_neg hp]
      exact ih a

theorem foldl_if_eq_sum (l : List (Nat × Nat)) (P : Nat × Nat → Bool) (f : Nat × Nat → Nat) :
    l.foldl (fun acc xy => if P xy then acc + f xy else acc) 0
      = (l.map (fun xy => if P xy then f xy else 0)).sum := by
  induction l with
  | nil => rfl
  | cons b l ih =>
    simp only [List.foldl_cons, List.map_cons, List.sum_cons]
    rw [foldl_if_shift, ih]
    by_cases hp : P b
    · rw [if_pos hp, if_pos hp]
      omega
    · rw [if_neg hp, if_neg hp]

theorem map_sum_add_of {α : Type} (l : List α) (F G H : α → Nat)
    (h : ∀ x ∈ l, F x = G x + H x) :
    (l.map F).sum = (l.map G).sum + (l.map H).sum := by
  induction l with
  | nil => rfl
  | cons b l ih =>
    simp only [List.map_cons, List.sum_cons]
    rw [h b (List.mem_cons_self b l), ih (fun x hx => h x (List.mem_cons_of_mem _ hx))]
    omega

/-- Claim C6: after `transfer_player_assets(A, B)` for distinct present
players A and B, with A owning exactly one base tile and B's recorded base
elsewhere on the board: no tile remains owned by A; every tile A owned is now
B's with soldiers unchanged; B's soldier and owned-tile totals equal the
pre-transfer sums of A's and B's; B's old base tile reverts to plain; B's
base position becomes the captured base's coordinates; and A is marked dead
and spectating. -/
theorem claim_C6 (s : GameState) (e c : Nat) (pe pc : Player)
    (he : s.findPlayer e = some pe) (hc : s.findPlayer c = some pc) (hec : e ≠ c)
    (hwf : s.coordsConsistent)
    (ax ay : Nat) (hax : ax < s.mapWidth) (hay : ay < s.mapHeight)
    (hbase : (s.tiles ay ax).owner = some e ∧ (s.tiles ay ax).terrain = TerrainType.base)
    (huniq : ∀ x, x < s.mapWidth → ∀ y, y < s.mapHeight →
      (s.tiles y x).owner = some e → (s.tiles y x).terrain = TerrainType.base →
      x = ax ∧ y = ay)
    (bx b2 : Nat) (hbpos : pc.basePosition = some (bx, b2))
    (hbx : bx < s.mapWidth) (hb2 : b2 < s.mapHeight)
    (hbne : ¬ (bx = ax ∧ b2 = ay)) :
    (∀ x y, x < s.mapWidth → y < s.mapHeight →
      ((s.transferPlayerAssets e c).tiles y x).owner ≠ some e) ∧
    (∀ x y, x < s.mapWidth → y < s.mapHeight → (s.tiles y x).owner = some e →
      ((s.transferPlayerAssets e c).tiles y x).owner = some c ∧
      ((s.transferPlayerAssets e c).tiles y x).soldiers = (s.tiles y x).soldiers) ∧
    (s.transferPlayerAssets e c).totalSoldiers c
      = s.totalSoldiers c + s.totalSoldiers e ∧
    (s.transferPlayerAssets e c).ownedTilesCount c
      = s.ownedTilesCount c + s.ownedTilesCount e ∧
    ((s.transferPlayerAssets e c).tiles b2 bx).terrain = TerrainType.plain ∧
    (∀ p ∈ (s.transferPlayerAssets e c).players, p.id = c →
      p.basePosition = some (ax, ay)) ∧
    (∀ p ∈ (s.transferPlayerAssets e c).players, p.id = e →
      p.isAlive = false ∧ p.isSpectator = true) := by
  have hphase : phaseB s.tiles e c ax ay bx b2
      ((rowMajor s.mapWidth s.mapHeight).foldl
        (transferStep s.mapWidth s.mapHeight e c) (s.tiles, pc.basePosition)) := by
    apply transferFold_phaseA s.mapWidth s.mapHeight e c ax ay bx b2 s.tiles hec hbne hbx hb2
        ⟨hbase.1, hbase.2⟩ (rowMajor s.mapWidth s.mapHeight)
        ((mem_rowMajor _ _ _ _).mpr ⟨hax, hay⟩)
    · intro a ha hoa hta
      obtain ⟨hax', hay'⟩ := (mem_rowMajor _ _ a.1 a.2).mp ha
      obtain ⟨h1, h2⟩ := huniq a.1 hax' a.2 hay' hoa hta
      exact Prod.ext_iff.mpr ⟨h1, h2⟩
    · exact ⟨hbpos, fun x y => rfl, fun x y => Or.inl rfl, hbase.1, fun x y => ⟨rfl, rfl⟩⟩
  refine ⟨?_, ?_, ?_, ?_, ?_, ?_, ?_⟩
  · intro x y hx hy
    rw [transferAssets_owner_eq s e c x y pe pc he hc hx hy]
    split_ifs with hcd
    · intro hcc
      exact hec (Option.some.inj hcc).symm
    · exact hcd
  · intro x y hx hy how
    rw [transferAssets_owner_eq s e c x y pe pc he hc hx hy, if_pos how]
    exact ⟨rfl, transferAssets_soldiers s e c x y⟩
  · unfold GameState.totalSoldiers
    rw [(transferAssets_dims s e c).1, (transferAssets_dims s e c).2]
    rw [foldl_if_eq_sum, foldl_if_eq_sum, foldl_if_eq_sum]
    apply map_sum_add_of
    intro xy hxy
    obtain ⟨hx, hy⟩ := (mem_rowMajor _ _ xy.1 xy.2).mp hxy
    have howe := transferAssets_owner_eq s e c xy.1 xy.2 pe pc he hc hx hy
    have hso := transferAssets_soldiers s e c xy.1 xy.2
    by_cases hce : (s.tiles xy.2 xy.1).owner = some e
    · rw [howe, hso, if_pos hce, hce]
      rw [if_pos (beq_self_eq_true (some c)),
        if_neg (fun hb => hec (Option.some.inj (beq_iff_eq.mp hb))),
        if_pos (beq_self_eq_true (some e))]
      omega
    · rw [howe, hso, if_neg hce]
      by_cases hcc : (s.tiles xy.2 xy.1).owner = some c
      · rw [hcc]
        rw [if_pos (beq_self_eq_true (some c)),
          if_neg (fun hb => hec (Option.some.inj (beq_iff_eq.mp hb)).symm)]
        omega
      · rw [if_neg (fun hb => hcc (beq_iff_eq.mp hb)),
          if_neg (fun hb => hce (beq_iff_eq.mp hb))]
  · unfold GameState.ownedTilesCount
    rw [(transferAssets_dims s e c).1, (transferAssets_dims s e c).2]
    rw [foldl_if_eq_sum, foldl_if_eq_sum, foldl_if_eq_sum]
    apply map_sum_add_of
    intro xy hxy
    obtain ⟨hx, hy⟩ := (mem_rowMajor _ _ xy.1 xy.2).mp hxy
    have howe := transferAssets_owner_eq s e c xy.1 xy.2 pe pc he hc hx hy
    by_cases hce : (s.tiles xy.2 xy.1).owner = some e
    · rw [howe, if_pos hce, hce]
      rw [if_pos (beq_self_eq_true (some c)),
        if_neg (fun hb => hec (Option.some.inj (beq_iff_eq.mp hb))),
        if_pos (beq_self_eq_true (some e))]
    · rw [howe, if_neg hce]
      by_cases hcc : (s.tiles xy.2 xy.1).owner = some c
      · rw [hcc]
        rw [if_pos (beq_self_eq_true (some c)),
          if_neg (fun hb => hec (Option.some.inj (beq_iff_eq.mp hb)).symm)]
      · rw [if_neg (fun hb => hcc (beq_iff_eq.mp hb)),
          if_neg (fun hb => hce (beq_iff_eq.mp hb))]
  · unfold GameState.transferPlayerAssets
    rw [he, hc]
    dsimp only
    split_ifs with hl
    · exact hphase.2.1
    · exact hphase.2.1
  · unfold GameState.transferPlayerAssets
    rw [he, hc]
    dsimp only
    have hbp2 : ((rowMajor s.mapWidth s.mapHeight).foldl
        (transferStep s.mapWidth s.mapHeight e c) (s.tiles, pc.basePosition)).2
        = some (ax, ay) := by
      rw [hphase.1, (hwf ax hax ay hay).1, (hwf ax hax ay hay).2]
    have hcore : ∀ p ∈ (s.players.map (fun p =>
          if p.id == c then
            { p with basePosition := ((rowMajor s.mapWidth s.mapHeight).foldl
                (transferStep s.mapWidth s.mapHeight e c) (s.tiles, pc.basePosition)).2 }
          else p)).map (fun p => if p.id == e then p.eliminate else p),
        p.id = c → p.basePosition = some (ax, ay) := by
      intro p hp hpc
      obtain ⟨q1, hq1, rfl⟩ := List.mem_map.mp hp
      obtain ⟨q, hq, rfl⟩ := List.mem_map.mp hq1
      by_cases hqc : q.id = c
      · rw [if_pos (beq_iff_eq.mpr hqc)] at hpc ⊢
        have hne2 : ¬ ((({ q with basePosition := ((rowMajor s.mapWidth s.mapHeight).foldl
            (transferStep s.mapWidth s.mapHeight e c) (s.tiles, pc.basePosition)).2 } :
              Player).id == e) = true) := by
          simp only [beq_iff_eq]
          intro hqe
          exact hec (hqe.symm.trans hqc)
        rw [if_neg hne2]
        exact hbp2
      · by_cases hqe : q.id = e
        · rw [if_neg (fun hb => hqc (beq_iff_eq.mp hb))] at hpc ⊢
          rw [if_pos (beq_iff_eq.mpr hqe)] at hpc ⊢
          exact absurd hpc hqc
        · rw [if_neg (fun hb => hqc (beq_iff_eq.mp hb))] at hpc ⊢
          rw [if_neg (fun hb => hqe (beq_iff_eq.mp hb))] at hpc ⊢
          exact absurd hpc hqc
    split_ifs with hl
    · exact hcore
    · exact hcore
  · exact transferAssets_elim_flags s e c pe pc he hc

/-- Witness for C6 on the concrete 3×1 transfer state: player 2 absorbs
player 1's tiles and totals, the old base reverts to plain, and player 1 is
eliminated. -/
theorem claim_C6_witness :
    ((exStateT.transferPlayerAssets 1 2).tiles 0 0).owner = some 2 ∧
    ((exStateT.transferPlayerAssets 1 2).tiles 0 0).soldiers = 3 ∧
    (exStateT.transferPlayerAssets 1 2).totalSoldiers 2 = 10 ∧
    (exStateT.transferPlayerAssets 1 2).ownedTilesCount 2 = 3 ∧
    ((exStateT.transferPlayerAssets 1 2).tiles 0 2).terrain = TerrainType.plain := by
  have hm := claim_C6 exStateT 1 2
    { exPlayer1 with basePosition := some (0, 0) }
    { exPlayer2 with basePosition := some (2, 0) }
    rfl rfl (by decide) (by unfold GameState.coordsConsistent; decide)
    0 0 (by decide) (by decide) (by decide)
    (by decide) 2 0 rfl (by decide) (by decide) (by decide)
  have h2 := hm.2.1 0 0 (by decide) (by decide) (by decide)
  exact ⟨h2.1, h2.2.trans (by decide), hm.2.2.1.trans (by decide),
    hm.2.2.2.1.trans (by decide), hm.2.2.2.2.1⟩

/-- Claim C8: `leave_game` removes the player from the room but does NOT
return their color to the pool — `room_colors` still records the departed
player's color, violating the used-colors-equal-current-players invariant;
only `remove_player_connection` (the send-failure cleanup path, not invoked
by `leave_game`) discards it.  Evaluated on a concrete two-player room. -/
theorem claim_C8 :
    (leaveGame exManager 1).game.findPlayer 1 = none ∧
    (∀ p ∈ (leaveGame exManager 1).game.players, p.color ≠ "#FF0000") ∧
    "#FF0000" ∈ (leaveGame exManager 1).roomColors ∧
    (leaveGame exManager 1).roomClosed = false ∧
    (removePlayerConnection exManager 1).roomColors = ["#0000FF"] := by
  decide

/-- Claim C9 counterexample: a tile with no visibility entry recorded for
the requesting non-spectator player (as before the first fog refresh) is not
in the player's visible set, yet `get_game_state` serializes it with full
truth — real owner and soldier count, no fog flag. -/
theorem claim_C9_counterexample :
    (exFog.tiles 0 0).visibility 1 ≠ some true ∧
    (exFog.tiles 0 0).owner = some 2 ∧
    (exFog.tiles 0 0).soldiers = 5 ∧
    exFog.viewIsSpectator (some 1) = false ∧
    (exFog.serializeTileFor (some 1) 0 0).ownerId = some 2 ∧
    (exFog.serializeTileFor (some 1) 0 0).soldiers = 5 ∧
    (exFog.serializeTileFor (some 1) 0 0).isFog = false := by
  decide

/-- Claim C9 (amended): spectators always get full truth; a non-spectator
gets the fogged serialization — true terrain and coordinates, null owner,
zero soldiers and requirement, fog flag — exactly for tiles whose visibility
dict has a `False` entry for them, and full truth for tiles whose dict entry
is `True` or absent; the fogged output does not depend on the tile's owner
or soldier count (noninterference). -/
theorem claim_C9 (s : GameState) (pid : Nat) (x y : Nat) (hpid : pid ≠ 0) :
    (s.viewIsSpectator (some pid) = true →
      s.serializeTileFor (some pid) x y = fullTileData (s.tiles y x)) ∧
    (s.viewIsSpectator (some pid) = false →
      ((s.tiles y x).visibility pid = some false →
        s.serializeTileFor (some pid) x y =
          { x := (s.tiles y x).x, y := (s.tiles y x).y, terrain := (s.tiles y x).terrain,
            ownerId := none, soldiers := 0, requiredSoldiers := 0, isFog := true }) ∧
      ((s.tiles y x).visibility pid ≠ some false →
        s.serializeTileFor (some pid) x y = fullTileData (s.tiles y x))) ∧
    (∀ t1 t2 : Tile, t1.visibility pid = some false → t2.visibility pid = some false →
      t1.x = t2.x → t1.y = t2.y → t1.terrain = t2.terrain →
      serializeTile t1 false (some pid) = serializeTile t2 false (some pid)) := by
  refine ⟨?_, ?_, ?_⟩
  · intro hspec
    unfold GameState.serializeTileFor serializeTile
    rw [hspec]
    rfl
  · intro hspec
    constructor
    · intro hvis
      unfold GameState.serializeTileFor serializeTile
      rw [hspec]
      simp only [Bool.false_eq_true, if_false]
      rw [hvis]
      split_ifs with hcond
      · rfl
      · exact absurd ⟨hpid, rfl, fun hh => Bool.noConfusion hh⟩ hcond
    · intro hvis
      unfold GameState.serializeTileFor serializeTile
      rw [hspec]
      simp only [Bool.false_eq_true, if_false]
      cases hv : (s.tiles y x).visibility pid with
      | none =>
        split_ifs with hcond
        · exact absurd hcond (fun hc => Bool.noConfusion hc.2.1)
        · rfl
      | some b =>
        cases b with
        | false => exact absurd hv hvis
        | true =>
          split_ifs with hcond
          · exact absurd hcond (fun hc => hc.2.2 rfl)
          · rfl
  · intro t1 t2 h1 h2 hx hy ht
    unfold serializeTile
    simp only [Bool.false_eq_true, if_false]
    rw [h1, h2]
    split_ifs with hcond
    · rw [hx, hy, ht]
    · exact absurd ⟨hpid, rfl, fun hh => Bool.noConfusion hh⟩ hcond

/-- Witness for C9 (amended): on `exFog2` (explicit `visibility[1] = False`
entry) the tile is fogged for player 1, and two tiles differing only in
owner/soldiers serialize identically when fogged. -/
theorem claim_C9_witness :
    (exFog2.serializeTileFor (some 1) 0 0).ownerId = none ∧
    (exFog2.serializeTileFor (some 1) 0 0).soldiers = 0 ∧
    (exFog2.serializeTileFor (some 1) 0 0).isFog = true ∧
    serializeTile { exFog2.tiles 0 0 with owner := some 1, soldiers := 99 } false (some 1)
      = serializeTile (exFog2.tiles 0 0) false (some 1) := by
  have hm := claim_C9 exFog2 1 0 0 (by decide)
  have hfog := (hm.2.1 (by decide)).1 (by decide)
  have hni := hm.2.2 { exFog2.tiles 0 0 with owner := some 1, soldiers := 99 }
    (exFog2.tiles 0 0) (by decide) (by decide) rfl rfl rfl
  exact ⟨by rw [hfog], by rw [hfog], by rw [hfog], hni⟩

/-- **C7.**  Countdown lifecycle of `set_player_ready`.  Cancellation: in a
room with a pending countdown and the match not started, a non-spectator
member who is currently ready and toggles (to not-ready) leaves the room with
no countdown task and no countdown value.  Start guard: whenever a call turns
a non-pending countdown task into a pending one, the room has — after the
toggle — at least two non-spectator vote entries, all of them ready, and the
match not yet started. -/
theorem claim_C7 (r : RoomState) (pid : Nat) :
    (∀ p : Player,
      lookupReady r.readyStates pid = some true →
      r.players.find? (fun q => q.id == pid) = some p →
      p.voluntarySpectator = false →
      r.gameStarted = false →
      taskPending r.countdownTask = true →
      (setPlayerReady r pid).2.countdownTask = none ∧
      (setPlayerReady r pid).2.countdownValue = none) ∧
    (taskPending r.countdownTask = false →
      taskPending (setPlayerReady r pid).2.countdownTask = true →
      ∃ old, lookupReady r.readyStates pid = some old ∧
        2 ≤ (nonSpecVotes r pid (!old)).length ∧
        (nonSpecVotes r pid (!old)).all (fun e => e.2) = true ∧
        r.gameStarted = false) := by
  constructor
  · intro p hlk hfp hvol _hgs htask
    obtain ⟨e, he, _he2⟩ := Option.map_eq_some'.mp hlk
    have hemem : e ∈ r.readyStates := List.mem_of_find?_eq_some he
    have hbeq := List.find?_some he
    have he1 : e.1 = pid := beq_iff_eq.mp hbeq
    have hmem2 : (pid, false) ∈ nonSpecVotes r pid false := by
      unfold nonSpecVotes
      refine List.mem_filter.mpr ⟨?_, ?_⟩
      · refine List.mem_map.mpr ⟨e, hemem, ?_⟩
        dsimp only
        rw [if_pos hbeq, he1]
      · dsimp only
        rw [hfp]
        dsimp only
        rw [hvol]
        decide
    have hall : (nonSpecVotes r pid false).all (fun e => e.2) = false := by
      cases hx : (nonSpecVotes r pid false).all (fun e => e.2) with
      | false => rfl
      | true =>
        have hmm := (List.all_eq_true.mp hx) (pid, false) hmem2
        exact Bool.noConfusion hmm
    have hallI := hall
    unfold nonSpecVotes at hallI
    simp only [setPlayerReady, hlk, Bool.not_true, Bool.not_false, hfp, hvol, htask,
      Bool.true_and, Bool.and_true, eq_self_iff_true, if_true]
    rw [hallI]
    simp only [taskPending, Bool.and_false, Bool.false_and, Bool.and_true, Bool.not_false,
      Bool.or_true, Bool.false_eq_true, if_false]
    exact ⟨trivial, trivial⟩
  · intro hnot hpend
    cases hlk : lookupReady r.readyStates pid with
    | none =>
      unfold setPlayerReady at hpend
      rw [hlk] at hpend
      dsimp only at hpend
      exact Bool.noConfusion (hnot.symm.trans hpend)
    | some old =>
      unfold setPlayerReady at hpend
      rw [hlk] at hpend
      dsimp only at hpend
      cases hfp2 : r.players.find? (fun p => p.id == pid) with
      | none =>
        rw [hfp2] at hpend
        simp only [hnot, Bool.and_false, Bool.false_and, Bool.false_eq_true, if_false,
          ite_self] at hpend
        split at hpend
        · rename_i hstart
          rw [Bool.and_eq_true, Bool.and_eq_true] at hstart
          obtain ⟨⟨h2, h3⟩, h4⟩ := hstart
          refine ⟨old, rfl, of_decide_eq_true h2, h3, ?_⟩
          cases hg : r.gameStarted with
          | false => rfl
          | true => rw [hg] at h4; exact Bool.noConfusion h4
        · dsimp only at hpend
          exact Bool.noConfusion (hnot.symm.trans hpend)
      | some p =>
        rw [hfp2] at hpend
        simp only [hnot, Bool.and_false, Bool.false_and, Bool.false_eq_true, if_false,
          ite_self] at hpend
        split at hpend
        · rename_i hstart
          rw [Bool.and_eq_true, Bool.and_eq_true] at hstart
          obtain ⟨⟨h2, h3⟩, h4⟩ := hstart
          refine ⟨old, rfl, of_decide_eq_true h2, h3, ?_⟩
          cases hg : r.gameStarted with
          | false => rfl
          | true => rw [hg] at h4; exact Bool.noConfusion h4
        · dsimp only at hpend
          exact Bool.noConfusion (hnot.symm.trans hpend)

/-- Witness for C7: on `exRoom` (pending countdown, both members ready and
non-spectators) player 1 un-readying cancels the countdown; on `exRoomW`
(no countdown, player 2 not ready) player 2 readying turns the task pending,
and the theorem yields the start-guard facts. -/
theorem claim_C7_witness :
    ((setPlayerReady exRoom 1).2.countdownTask = none ∧
     (setPlayerReady exRoom 1).2.countdownValue = none) ∧
    (∃ old, lookupReady exRoomW.readyStates 2 = some old ∧
      2 ≤ (nonSpecVotes exRoomW 2 (!old)).length ∧
      (nonSpecVotes exRoomW 2 (!old)).all (fun e => e.2) = true ∧
      exRoomW.gameStarted = false) :=
  ⟨(claim_C7 exRoom 1).1 exPlayer1 (by decide) (by decide) rfl rfl rfl,
   (claim_C7 exRoomW 2).2 rfl (by decide)⟩

/-!  Fog-of-war refresh (`update_fog_of_war` / `_set_visibility_around_tile`):
pointwise characterization of the visibility values it writes. -/

theorem setVisTrue_fields (g : Nat → Nat → Tile) (a b pid x y : Nat) :
    (setVisTrue g a b pid y x).owner = (g y x).owner ∧
    (setVisTrue g a b pid y x).x = (g y x).x ∧
    (setVisTrue g a b pid y x).y = (g y x).y := by
  simp only [setVisTrue]
  by_cases h : y = b ∧ x = a
  · obtain ⟨rfl, rfl⟩ := h
    rw [setTile_self]
    exact ⟨rfl, rfl, rfl⟩
  · rw [setTile_other g a b _ x y h]
    exact ⟨rfl, rfl, rfl⟩

theorem setVisTrue_vis_self (g : Nat → Nat → Tile) (a b pid x y : Nat) :
    (setVisTrue g a b pid y x).visibility pid =
      if y = b ∧ x = a then some true else (g y x).visibility pid := by
  simp only [setVisTrue]
  by_cases h : y = b ∧ x = a
  · obtain ⟨rfl, rfl⟩ := h
    rw [setTile_self, if_pos ⟨rfl, rfl⟩]
    simp
  · rw [setTile_other g a b _ x y h, if_neg h]

theorem setVisTrue_vis_ne (g : Nat → Nat → Tile) (a b pid k x y : Nat) (hk : k ≠ pid) :
    (setVisTrue g a b pid y x).visibility k = (g y x).visibility k := by
  simp only [setVisTrue]
  by_cases h : y = b ∧ x = a
  · obtain ⟨rfl, rfl⟩ := h
    rw [setTile_self]
    dsimp only
    rw [if_neg hk]
  · rw [setTile_other g a b _ x y h]

theorem visFold_fields (cs : List (Nat × Nat)) (cx cy pid : Nat) (g0 : Nat → Nat → Tile)
    (x y : Nat) :
    ((cs.foldl (fun g xy => if manhattan xy.1 xy.2 cx cy ≤ 2 then setVisTrue g xy.1 xy.2 pid
        else g) g0) y x).owner = (g0 y x).owner ∧
    ((cs.foldl (fun g xy => if manhattan xy.1 xy.2 cx cy ≤ 2 then setVisTrue g xy.1 xy.2 pid
        else g) g0) y x).x = (g0 y x).x ∧
    ((cs.foldl (fun g xy => if manhattan xy.1 xy.2 cx cy ≤ 2 then setVisTrue g xy.1 xy.2 pid
        else g) g0) y x).y = (g0 y x).y := by
  induction cs generalizing g0 with
  | nil => exact ⟨rfl, rfl, rfl⟩
  | cons c rest ih =>
    rw [List.foldl_cons]
    have hs := ih (if manhattan c.1 c.2 cx cy ≤ 2 then setVisTrue g0 c.1 c.2 pid else g0)
    by_cases hd : manhattan c.1 c.2 cx cy ≤ 2
    · rw [if_pos hd] at hs ⊢
      obtain ⟨v1, v2, v3⟩ := setVisTrue_fields g0 c.1 c.2 pid x y
      exact ⟨hs.1.trans v1, hs.2.1.trans v2, hs.2.2.trans v3⟩
    · rw [if_neg hd] at hs ⊢
      exact hs

theorem visFold_vis_ne (cs : List (Nat × Nat)) (cx cy pid : Nat) (g0 : Nat → Nat → Tile)
    (k x y : Nat) (hk : k ≠ pid) :
    ((cs.foldl (fun g xy => if manhattan xy.1 xy.2 cx cy ≤ 2 then setVisTrue g xy.1 xy.2 pid
        else g) g0) y x).visibility k = (g0 y x).visibility k := by
  induction cs generalizing g0 with
  | nil => rfl
  | cons c rest ih =>
    rw [List.foldl_cons]
    rw [ih]
    by_cases hd : manhattan c.1 c.2 cx cy ≤ 2
    · rw [if_pos hd]
      exact setVisTrue_vis_ne g0 c.1 c.2 pid k x y hk
    · rw [if_neg hd]

theorem visFold_vis (cs : List (Nat × Nat)) (cx cy pid : Nat) (g0 : Nat → Nat → Tile)
    (x y : Nat) :
    ((cs.foldl (fun g xy => if manhattan xy.1 xy.2 cx cy ≤ 2 then setVisTrue g xy.1 xy.2 pid
        else g) g0) y x).visibility pid =
      if (x, y) ∈ cs ∧ manhattan x y cx cy ≤ 2 then some true
      else (g0 y x).visibility pid := by
  induction cs generalizing g0 with
  | nil =>
    rw [List.foldl_nil, if_neg]
    rintro ⟨h, _⟩
    exact absurd h (List.not_mem_nil _)
  | cons c rest ih =>
    rw [List.foldl_cons]
    rw [ih]
    have hstep : ((if manhattan c.1 c.2 cx cy ≤ 2 then setVisTrue g0 c.1 c.2 pid else g0)
        y x).visibility pid =
        if (x, y) = c ∧ manhattan x y cx cy ≤ 2 then some true
        else (g0 y x).visibility pid := by
      by_cases hc : (x, y) = c
      · have hc1 : c.1 = x := by rw [← hc]
        have hc2 : c.2 = y := by rw [← hc]
        subst hc1
        subst hc2
        by_cases hd : manhattan c.1 c.2 cx cy ≤ 2
        · rw [if_pos hd, if_pos ⟨rfl, hd⟩, setVisTrue_vis_self, if_pos ⟨rfl, rfl⟩]
        · rw [if_neg hd, if_neg (fun hh => hd hh.2)]
      · by_cases hd : manhattan c.1 c.2 cx cy ≤ 2
        · rw [if_pos hd, setVisTrue_vis_self,
            if_neg (fun hh => hc (Prod.ext hh.2 hh.1)), if_neg (fun hh => hc hh.1)]
        · rw [if_neg hd, if_neg (fun hh => hc hh.1)]
    rw [hstep]
    by_cases hd : manhattan x y cx cy ≤ 2
    · by_cases hm : (x, y) ∈ rest
      · rw [if_pos ⟨hm, hd⟩, if_pos ⟨List.mem_cons_of_mem _ hm, hd⟩]
      · rw [if_neg (fun hh => hm hh.1)]
        by_cases hc : (x, y) = c
        · rw [if_pos ⟨hc, hd⟩, if_pos ⟨List.mem_cons.mpr (Or.inl hc), hd⟩]
        · rw [if_neg (fun hh => hc hh.1), if_neg]
          rintro ⟨hmem, _⟩
          cases List.mem_cons.mp hmem with
          | inl h => exact hc h
          | inr h => exact hm h
    · rw [if_neg (fun hh => hd hh.2), if_neg (fun hh => hd hh.2), if_neg (fun hh => hd hh.2)]

theorem setVisAround_fields (s : GameState) (cx cy pid x y : Nat) :
    (s.setVisibilityAroundTile cx cy pid).mapWidth = s.mapWidth ∧
    (s.setVisibilityAroundTile cx cy pid).mapHeight = s.mapHeight ∧
    (s.setVisibilityAroundTile cx cy pid).players = s.players ∧
    ((s.setVisibilityAroundTile cx cy pid).tiles y x).owner = (s.tiles y x).owner ∧
    ((s.setVisibilityAroundTile cx cy pid).tiles y x).x = (s.tiles y x).x ∧
    ((s.setVisibilityAroundTile cx cy pid).tiles y x).y = (s.tiles y x).y :=
  ⟨rfl, rfl, rfl,
   (visFold_fields (visCoords s.mapWidth s.mapHeight cx cy) cx cy pid s.tiles x y).1,
   (visFold_fields (visCoords s.mapWidth s.mapHeight cx cy) cx cy pid s.tiles x y).2.1,
   (visFold_fields (visCoords s.mapWidth s.mapHeight cx cy) cx cy pid s.tiles x y).2.2⟩

theorem setVisAround_vis_ne (s : GameState) (cx cy pid k x y : Nat) (hk : k ≠ pid) :
    ((s.setVisibilityAroundTile cx cy pid).tiles y x).visibility k =
      (s.tiles y x).visibility k :=
  visFold_vis_ne (visCoords s.mapWidth s.mapHeight cx cy) cx cy pid s.tiles k x y hk

theorem setVisAround_vis (s : GameState) (cx cy pid x y : Nat) :
    ((s.setVisibilityAroundTile cx cy pid).tiles y x).visibility pid =
      if x < s.mapWidth ∧ y < s.mapHeight ∧ manhattan x y cx cy ≤ 2 then some true
      else (s.tiles y x).visibility pid := by
  have h := visFold_vis (visCoords s.mapWidth s.mapHeight cx cy) cx cy pid s.tiles x y
  have hcond : ((x, y) ∈ visCoords s.mapWidth s.mapHeight cx cy ∧
      manhattan x y cx cy ≤ 2) ↔
      (x < s.mapWidth ∧ y < s.mapHeight ∧ manhattan x y cx cy ≤ 2) := by
    rw [mem_visCoords, manhattan_le_two_iff]
    omega
  rw [if_congr hcond rfl rfl] at h
  exact h

theorem ownedFold_fields (l : List (Nat × Nat)) (sc : GameState) (pid : Nat)
    (u : GameState) (x y : Nat) :
    (l.foldl (fun st2 xy => st2.setVisibilityAroundTile (sc.tiles xy.2 xy.1).x
        (sc.tiles xy.2 xy.1).y pid) u).mapWidth = u.mapWidth ∧
    (l.foldl (fun st2 xy => st2.setVisibilityAroundTile (sc.tiles xy.2 xy.1).x
        (sc.tiles xy.2 xy.1).y pid) u).mapHeight = u.mapHeight ∧
    (l.foldl (fun st2 xy => st2.setVisibilityAroundTile (sc.tiles xy.2 xy.1).x
        (sc.tiles xy.2 xy.1).y pid) u).players = u.players ∧
    ((l.foldl (fun st2 xy => st2.setVisibilityAroundTile (sc.tiles xy.2 xy.1).x
        (sc.tiles xy.2 xy.1).y pid) u).tiles y x).owner = (u.tiles y x).owner ∧
    ((l.foldl (fun st2 xy => st2.setVisibilityAroundTile (sc.tiles xy.2 xy.1).x
        (sc.tiles xy.2 xy.1).y pid) u).tiles y x).x = (u.tiles y x).x ∧
    ((l.foldl (fun st2 xy => st2.setVisibilityAroundTile (sc.tiles xy.2 xy.1).x
        (sc.tiles xy.2 xy.1).y pid) u).tiles y x).y = (u.tiles y x).y := by
  induction l generalizing u with
  | nil => exact ⟨rfl, rfl, rfl, rfl, rfl, rfl⟩
  | cons c rest ih =>
    rw [List.foldl_cons]
    have hs := ih (u.setVisibilityAroundTile (sc.tiles c.2 c.1).x (sc.tiles c.2 c.1).y pid)
    obtain ⟨f1, f2, f3, f4, f5, f6⟩ :=
      setVisAround_fields u (sc.tiles c.2 c.1).x (sc.tiles c.2 c.1).y pid x y
    exact ⟨hs.1.trans f1, hs.2.1.trans f2, hs.2.2.1.trans f3, hs.2.2.2.1.trans f4,
      hs.2.2.2.2.1.trans f5, hs.2.2.2.2.2.trans f6⟩

theorem ownedFold_vis_ne (l : List (Nat × Nat)) (sc : GameState) (pid : Nat)
    (u : GameState) (k x y : Nat) (hk : k ≠ pid) :
    ((l.foldl (fun st2 xy => st2.setVisibilityAroundTile (sc.tiles xy.2 xy.1).x
        (sc.tiles xy.2 xy.1).y pid) u).tiles y x).visibility k =
      (u.tiles y x).visibility k := by
  induction l generalizing u with
  | nil => rfl
  | cons c rest ih =>
    rw [List.foldl_cons]
    rw [ih]
    exact setVisAround_vis_ne u (sc.tiles c.2 c.1).x (sc.tiles c.2 c.1).y pid k x y hk

theorem ownedFold_vis (l : List (Nat × Nat)) (sc : GameState) (pid : Nat)
    (u : GameState) (x y : Nat) :
    ((l.foldl (fun st2 xy => st2.setVisibilityAroundTile (sc.tiles xy.2 xy.1).x
        (sc.tiles xy.2 xy.1).y pid) u).tiles y x).visibility pid =
      if x < u.mapWidth ∧ y < u.mapHeight ∧
          (∃ c ∈ l, manhattan x y ((sc.tiles c.2 c.1).x) ((sc.tiles c.2 c.1).y) ≤ 2)
      then some true else (u.tiles y x).visibility pid := by
  induction l generalizing u with
  | nil =>
    rw [List.foldl_nil, if_neg]
    rintro ⟨_, _, c, hc, _⟩
    exact absurd hc (List.not_mem_nil _)
  | cons c rest ih =>
    rw [List.foldl_cons]
    rw [ih]
    obtain ⟨f1, f2, _, _, _, _⟩ :=
      setVisAround_fields u (sc.tiles c.2 c.1).x (sc.tiles c.2 c.1).y pid x y
    rw [f1, f2, setVisAround_vis]
    by_cases hx : x < u.mapWidth
    · by_cases hy : y < u.mapHeight
      · by_cases hm : ∃ c' ∈ rest,
            manhattan x y ((sc.tiles c'.2 c'.1).x) ((sc.tiles c'.2 c'.1).y) ≤ 2
        · obtain ⟨c', hc', hd'⟩ := hm
          rw [if_pos ⟨hx, hy, c', hc', hd'⟩,
            if_pos ⟨hx, hy, c', List.mem_cons_of_mem _ hc', hd'⟩]
        · rw [if_neg (fun hh => hm hh.2.2)]
          by_cases hd : manhattan x y ((sc.tiles c.2 c.1).x) ((sc.tiles c.2 c.1).y) ≤ 2
          · rw [if_pos ⟨hx, hy, hd⟩, if_pos ⟨hx, hy, c, List.mem_cons_self c rest, hd⟩]
          · rw [if_neg (fun hh => hd hh.2.2), if_neg]
            rintro ⟨_, _, c', hc', hd'⟩
            cases List.mem_cons.mp hc' with
            | inl h => exact hd (h ▸ hd')
            | inr h => exact hm ⟨c', h, hd'⟩
      · rw [if_neg (fun hh => hy hh.2.1), if_neg (fun hh => hy hh.2.1),
          if_neg (fun hh => hy hh.2.1)]
    · rw [if_neg (fun hh => hx hh.1), if_neg (fun hh => hx hh.1),
        if_neg (fun hh => hx hh.1)]

/-- The near-an-owned-tile condition (measured through stored tile fields)
transports along any two states that agree on owners and stored coords. -/
theorem near_congr (w h : Nat) (sA sB : GameState) (k x y : Nat)
    (ht : ∀ a b, (sA.tiles b a).owner = (sB.tiles b a).owner ∧
      (sA.tiles b a).x = (sB.tiles b a).x ∧ (sA.tiles b a).y = (sB.tiles b a).y) :
    ((∃ c ∈ rowMajor w h, (sA.tiles c.2 c.1).owner = some k ∧
        manhattan x y ((sA.tiles c.2 c.1).x) ((sA.tiles c.2 c.1).y) ≤ 2) ↔
     (∃ c ∈ rowMajor w h, (sB.tiles c.2 c.1).owner = some k ∧
        manhattan x y ((sB.tiles c.2 c.1).x) ((sB.tiles c.2 c.1).y) ≤ 2)) := by
  constructor
  · rintro ⟨c, hc, h3, h4⟩
    obtain ⟨g4, g5, g6⟩ := ht c.1 c.2
    rw [g4] at h3
    rw [g5, g6] at h4
    exact ⟨c, hc, h3, h4⟩
  · rintro ⟨c, hc, h3, h4⟩
    obtain ⟨g4, g5, g6⟩ := ht c.1 c.2
    rw [← g4] at h3
    rw [← g5, ← g6] at h4
    exact ⟨c, hc, h3, h4⟩

theorem fogFold_vis (l : List Player) (s0 : GameState) (k x y : Nat) :
    ((l.foldl (fun st p =>
        ((rowMajor st.mapWidth st.mapHeight).filter
            (fun xy => (st.tiles xy.2 xy.1).owner == some p.id)).foldl
          (fun st2 xy => st2.setVisibilityAroundTile (st.tiles xy.2 xy.1).x
            (st.tiles xy.2 xy.1).y p.id) st) s0).tiles y x).visibility k =
      if (∃ p ∈ l, p.id = k) ∧ x < s0.mapWidth ∧ y < s0.mapHeight ∧
          (∃ c ∈ rowMajor s0.mapWidth s0.mapHeight, (s0.tiles c.2 c.1).owner = some k ∧
            manhattan x y ((s0.tiles c.2 c.1).x) ((s0.tiles c.2 c.1).y) ≤ 2)
      then some true else (s0.tiles y x).visibility k := by
  induction l generalizing s0 with
  | nil =>
    rw [List.foldl_nil, if_neg]
    rintro ⟨⟨p, hp, _⟩, _⟩
    exact absurd hp (List.not_mem_nil _)
  | cons p rest ih =>
    rw [List.foldl_cons]
    rw [ih]
    obtain ⟨f1, f2, _, _, _, _⟩ := ownedFold_fields
      ((rowMajor s0.mapWidth s0.mapHeight).filter
        (fun xy => (s0.tiles xy.2 xy.1).owner == some p.id)) s0 p.id s0 x y
    simp only [f1, f2]
    have hnear := near_congr s0.mapWidth s0.mapHeight _ s0 k x y
      (fun a b =>
        ⟨(ownedFold_fields ((rowMajor s0.mapWidth s0.mapHeight).filter
            (fun xy => (s0.tiles xy.2 xy.1).owner == some p.id)) s0 p.id s0 a b).2.2.2.1,
         (ownedFold_fields ((rowMajor s0.mapWidth s0.mapHeight).filter
            (fun xy => (s0.tiles xy.2 xy.1).owner == some p.id)) s0 p.id s0 a b).2.2.2.2.1,
         (ownedFold_fields ((rowMajor s0.mapWidth s0.mapHeight).filter
            (fun xy => (s0.tiles xy.2 xy.1).owner == some p.id)) s0 p.id s0 a b).2.2.2.2.2⟩)
    simp only [hnear]
    by_cases hk : k = p.id
    · subst hk
      rw [ownedFold_vis]
      have howned : (∃ c ∈ (rowMajor s0.mapWidth s0.mapHeight).filter
            (fun xy => (s0.tiles xy.2 xy.1).owner == some p.id),
            manhattan x y ((s0.tiles c.2 c.1).x) ((s0.tiles c.2 c.1).y) ≤ 2) ↔
          (∃ c ∈ rowMajor s0.mapWidth s0.mapHeight, (s0.tiles c.2 c.1).owner = some p.id ∧
            manhattan x y ((s0.tiles c.2 c.1).x) ((s0.tiles c.2 c.1).y) ≤ 2) := by
        constructor
        · rintro ⟨c, hc, hd⟩
          obtain ⟨hmem, hown⟩ := List.mem_filter.mp hc
          exact ⟨c, hmem, beq_iff_eq.mp hown, hd⟩
        · rintro ⟨c, hc, h3, h4⟩
          exact ⟨c, List.mem_filter.mpr ⟨hc, beq_iff_eq.mpr h3⟩, h4⟩
      simp only [howned]
      by_cases hB : x < s0.mapWidth ∧ y < s0.mapHeight ∧
          (∃ c ∈ rowMajor s0.mapWidth s0.mapHeight, (s0.tiles c.2 c.1).owner = some p.id ∧
            manhattan x y ((s0.tiles c.2 c.1).x) ((s0.tiles c.2 c.1).y) ≤ 2)
      · by_cases hA : ∃ q ∈ rest, q.id = p.id
        · rw [if_pos ⟨hA, hB⟩, if_pos ⟨⟨p, List.mem_cons_self p rest, rfl⟩, hB⟩]
        · rw [if_neg (fun hh => hA hh.1), if_pos hB,
            if_pos ⟨⟨p, List.mem_cons_self p rest, rfl⟩, hB⟩]
      · rw [if_neg (fun hh => hB hh.2), if_neg hB, if_neg (fun hh => hB hh.2)]
    · rw [ownedFold_vis_ne _ _ _ _ _ _ _ hk]
      have hiff : (∃ q ∈ p :: rest, q.id = k) ↔ (∃ q ∈ rest, q.id = k) := by
        constructor
        · rintro ⟨q, hq, hqk⟩
          cases List.mem_cons.mp hq with
          | inl h =>
            rw [h] at hqk
            exact absurd hqk.symm hk
          | inr h => exact ⟨q, h, hqk⟩
        · rintro ⟨q, hq, hqk⟩
          exact ⟨q, List.mem_cons_of_mem _ hq, hqk⟩
      simp only [hiff]

theorem updateFog_vis (s : GameState) (k x y : Nat) :
    (s.updateFogOfWar.tiles y x).visibility k =
      if (∃ p ∈ s.players, p.id = k) ∧ x < s.mapWidth ∧ y < s.mapHeight ∧
          (∃ c ∈ rowMajor s.mapWidth s.mapHeight, (s.tiles c.2 c.1).owner = some k ∧
            manhattan x y ((s.tiles c.2 c.1).x) ((s.tiles c.2 c.1).y) ≤ 2)
      then some true
      else if k ∈ s.players.map (fun p => p.id) then some false
      else (s.tiles y x).visibility k := by
  simp only [GameState.updateFogOfWar]
  rw [fogFold_vis]

/-- **C4.**  Fog-of-war refresh: for a present player `pid` and an in-bounds
tile on a board whose tiles store their own coordinates, after
`update_fog_of_war` the tile carries `visibility[pid] = True` iff it lies
within Manhattan distance 2 of some tile currently owned by `pid`, and
`visibility[pid] = False` otherwise; the refreshed value is recomputed from
scratch — it agrees for any two states with the same dimensions, players and
tile owners/coords, regardless of earlier visibility values. -/
theorem claim_C4 (s : GameState) (pid x y : Nat)
    (hwf : s.coordsConsistent)
    (hp : ∃ p ∈ s.players, p.id = pid)
    (hx : x < s.mapWidth) (hy : y < s.mapHeight) :
    ((s.updateFogOfWar.tiles y x).visibility pid = some true ↔ s.nearOwned pid x y) ∧
    (¬ s.nearOwned pid x y → (s.updateFogOfWar.tiles y x).visibility pid = some false) ∧
    (∀ s2 : GameState, s2.mapWidth = s.mapWidth → s2.mapHeight = s.mapHeight →
      s2.players = s.players →
      (∀ a b, (s2.tiles b a).owner = (s.tiles b a).owner ∧
        (s2.tiles b a).x = (s.tiles b a).x ∧ (s2.tiles b a).y = (s.tiles b a).y) →
      (s2.updateFogOfWar.tiles y x).visibility pid =
        (s.updateFogOfWar.tiles y x).visibility pid) := by
  obtain ⟨q, hq, hqid⟩ := hp
  have hD : pid ∈ s.players.map (fun p => p.id) := List.mem_map.mpr ⟨q, hq, hqid⟩
  have hne : (∃ c ∈ rowMajor s.mapWidth s.mapHeight, (s.tiles c.2 c.1).owner = some pid ∧
      manhattan x y ((s.tiles c.2 c.1).x) ((s.tiles c.2 c.1).y) ≤ 2) ↔
      s.nearOwned pid x y := by
    unfold GameState.nearOwned
    constructor
    · rintro ⟨c, hc, h3, h4⟩
      have hc2 : (c.1, c.2) ∈ rowMajor s.mapWidth s.mapHeight := hc
      obtain ⟨h1, h2⟩ := (mem_rowMajor _ _ c.1 c.2).mp hc2
      rw [(hwf c.1 h1 c.2 h2).1, (hwf c.1 h1 c.2 h2).2] at h4
      exact ⟨c.1, c.2, h1, h2, h3, h4⟩
    · rintro ⟨cx, cy, h1, h2, h3, h4⟩
      refine ⟨(cx, cy), (mem_rowMajor _ _ cx cy).mpr ⟨h1, h2⟩, h3, ?_⟩
      show manhattan x y ((s.tiles cy cx).x) ((s.tiles cy cx).y) ≤ 2
      rw [(hwf cx h1 cy h2).1, (hwf cx h1 cy h2).2]
      exact h4
  refine ⟨?_, ?_, ?_⟩
  · rw [updateFog_vis]
    constructor
    · intro hv
      by_contra hno
      rw [if_neg (fun hC => hno (hne.mp hC.2.2.2)), if_pos hD] at hv
      exact absurd hv (by decide)
    · intro hn2
      rw [if_pos ⟨⟨q, hq, hqid⟩, hx, hy, hne.mpr hn2⟩]
  · intro hno
    rw [updateFog_vis, if_neg (fun hC => hno (hne.mp hC.2.2.2)), if_pos hD]
  · intro s2 hw hh hpl hfields
    rw [updateFog_vis, updateFog_vis]
    have hn := near_congr s.mapWidth s.mapHeight s2 s pid x y hfields
    simp only [hw, hh, hpl, hn]
    rw [if_pos hD, if_pos hD]

/-- Witness for C4: on `exState1` (player 1 owns `(0,0)` of the 3×1 strip)
the refreshed board shows tile `(1,0)` visible to player 1. -/
theorem claim_C4_witness :
    (exState1.updateFogOfWar.tiles 0 1).visibility 1 = some true := by
  have hno : exState1.nearOwned 1 1 0 := by
    unfold GameState.nearOwned
    exact ⟨0, 0, by decide, by decide, by decide, by decide⟩
  exact ((claim_C4 exState1 1 1 0 (by unfold GameState.coordsConsistent; decide)
      ⟨exPlayer1, by decide, rfl⟩ (by decide) (by decide)).1).mpr hno

end FlagWars
